import Mathlib

/-!
Shallow embedding of the validation rule engine of app/main.py
(OpenAI product feed validator).  Python dicts with string keys become
association lists, Python strings become Lean String, machine floats
used for the pass-rate arithmetic are modelled as exact rationals with
an explicit round-half-even to four decimal places (mirroring round(x, 4)),
and every fallible Python operation (float(), int(), date()) is modelled
as an Option-returning parser, matching the try/except structure of the
source.  The ambient call date.today() is made an explicit parameter.
-/

set_option exponentiation.threshold 400

namespace Feed

/-! ### Python string primitives -/

/-- Whitespace characters recognised by Python str.strip / str.split:
space, tab, newline, carriage return, vertical tab, form feed
(code points 32, 9, 10, 13, 11, 12). -/
def pyWs (c : Char) : Bool :=
  c.toNat == 32 || c.toNat == 9 || c.toNat == 10 || c.toNat == 13 ||
    c.toNat == 11 || c.toNat == 12

/-- Strip leading and trailing whitespace from a character list. -/
def stripList (l : List Char) : List Char :=
  ((l.dropWhile pyWs).reverse.dropWhile pyWs).reverse

/-- Python str.strip() (ASCII whitespace). -/
def pyStrip (s : String) : String := ⟨stripList s.data⟩

/-- ASCII lower-casing of one character (Python str.lower on ASCII input). -/
def asciiLower (c : Char) : Char :=
  if c.toNat ≥ 65 ∧ c.toNat ≤ 90 then Char.ofNat (c.toNat + 32) else c

/-- Python str.lower() (ASCII fragment). -/
def lowerStr (s : String) : String := ⟨s.data.map asciiLower⟩

/-- Replace hyphen (45) and space (32) by underscore, one character at
a time; this is the composition of replace rules in normalize_key. -/
def underscoreify (c : Char) : Char :=
  if c.toNat == 45 || c.toNat == 32 then '_' else c

/-- Python str.split() with no argument: split on whitespace runs,
dropping empty pieces.  Accumulator-based to stay structural. -/
def pyWordsAux : List Char → List Char → List (List Char)
  | [], cur => if cur.isEmpty then [] else [cur.reverse]
  | c :: t, cur =>
      if pyWs c then
        (if cur.isEmpty then pyWordsAux t [] else cur.reverse :: pyWordsAux t [])
      else pyWordsAux t (c :: cur)

def pyWords (s : String) : List String := (pyWordsAux s.data []).map (fun l => ⟨l⟩)

/-- Lexicographic strict comparison of character lists by code point,
the order Python uses for str comparison. -/
def listStrLt : List Char → List Char → Bool
  | [], [] => false
  | [], _ :: _ => true
  | _ :: _, [] => false
  | a :: as, b :: bs =>
      if a.toNat < b.toNat then true
      else if b.toNat < a.toNat then false
      else listStrLt as bs

/-- Python s1 >= s2 for strings. -/
def pyStrGe (a b : String) : Bool := ¬ listStrLt a.data b.data

/-! ### Numeric parsers (Python float / int builtins, Option-valued
since the source wraps every call in try/except).  Decimal and
scientific literals are covered; underscore digit separators and the
inf/nan literals are treated as non-numeric, which produces the same
issue as the OverflowError / ValueError path of the source. -/

def splitSign : List Char → Int × List Char
  | '+' :: t => (1, t)
  | '-' :: t => (-1, t)
  | l => (1, l)

def digitsVal (l : List Char) : Nat :=
  l.foldl (fun a c => a * 10 + (c.toNat - 48)) 0

/-- Ten to a natural power, as an integer (kept away from typeclass
powers so that the kernel evaluates it). -/
def pow10 (n : Nat) : Int := ((10 : Nat) ^ n : Nat)

/-- The exact value of a parsed Python float literal: num / 10^scale.
Exact decimals model binary doubles; the comparison and truncation uses
below agree with the source except beyond the double range or precision. -/
structure PyNum where
  num : Int
  scale : Nat
deriving DecidableEq, Repr

/-- Exponent suffix of a float literal: none on malformed input, the
signed exponent on a valid one, zero on the empty suffix. -/
def pyExpVal (l : List Char) : Option Int :=
  match l with
  | [] => some 0
  | c :: t =>
      if c == 'e' || c == 'E' then
        let (sg, t2) := splitSign t
        let ds := t2.takeWhile Char.isDigit
        if ds.isEmpty || !(t2.dropWhile Char.isDigit).isEmpty then none
        else some (sg * (digitsVal ds : Int))
      else none

/-- Magnitudes at or above 1e309 overflow a Python float to infinity;
the int() call on such a value raises, which the source converts to an
issue exactly like a parse failure, so the model folds overflow into
the failure case. -/
def pyNumOverflow (p : PyNum) : Bool :=
  pow10 (309 + p.scale) ≤ p.num.natAbs

def mkPyNum (mant : Int) (e : Int) (fracLen : Nat) : Option PyNum :=
  let k : Int := e - (fracLen : Int)
  let p : PyNum :=
    if 0 ≤ k then ⟨mant * pow10 k.toNat, 0⟩ else ⟨mant, (-k).toNat⟩
  if pyNumOverflow p then none else some p

/-- Python float(s) on an already-stripped string: optional sign,
digits with an optional fractional part (or a bare fractional part),
optional scientific exponent.  Underscore separators and the inf / nan
literals are treated as failures, which reaches the same issue as the
ValueError / OverflowError paths of the source. -/
def pyFloat (s : String) : Option PyNum :=
  let (sg, l) := splitSign s.data
  let ip := l.takeWhile Char.isDigit
  let r1 := l.dropWhile Char.isDigit
  match r1 with
  | '.' :: r2 =>
      let fp := r2.takeWhile Char.isDigit
      let r3 := r2.dropWhile Char.isDigit
      if ip.isEmpty && fp.isEmpty then none
      else
        match pyExpVal r3 with
        | none => none
        | some e =>
            mkPyNum (sg * (((digitsVal ip * 10 ^ fp.length + digitsVal fp : Nat)) : Int))
              e fp.length
  | _ =>
      if ip.isEmpty then none
      else
        match pyExpVal r1 with
        | none => none
        | some e => mkPyNum (sg * (digitsVal ip : Int)) e 0

/-- Strict comparison of two parsed floats (cross-multiplied, exact). -/
def pyNumLt (a b : PyNum) : Bool :=
  a.num * pow10 b.scale < b.num * pow10 a.scale

/-- Python int(float(s)): truncation toward zero, none when either the
parse or the int conversion raises. -/
def pyIntFloat (s : String) : Option Int :=
  (pyFloat s).map (fun p => Int.tdiv p.num (pow10 p.scale))

/-- Python int(s): optional sign followed by decimal digits. -/
def pyInt (s : String) : Option Int :=
  let (sg, l) := splitSign s.data
  if !l.isEmpty && l.all Char.isDigit then some (sg * (digitsVal l : Int)) else none

/-! ### A small regular-expression engine (Brzozowski derivatives).
The source compiles several regex literals; two of them (WEIGHT_RE and
DIMENSION_RE, and the pickup_sla pattern) are written with doubled
backslashes inside raw strings, so the compiled patterns demand literal
backslash characters.  The patterns below transcribe the literals
exactly as Python interprets them. -/

inductive RE where
  | emp : RE
  | eps : RE
  | cls : (Char → Bool) → RE
  | alt : RE → RE → RE
  | cat : RE → RE → RE
  | star : RE → RE

def RE.nullable : RE → Bool
  | .emp => false
  | .eps => true
  | .cls _ => false
  | .alt a b => a.nullable || b.nullable
  | .cat a b => a.nullable && b.nullable
  | .star _ => true

def RE.deriv : RE → Char → RE
  | .emp, _ => .emp
  | .eps, _ => .emp
  | .cls p, c => if p c then .eps else .emp
  | .alt a b, c => .alt (a.deriv c) (b.deriv c)
  | .cat a b, c =>
      if a.nullable then .alt (.cat (a.deriv c) b) (b.deriv c)
      else .cat (a.deriv c) b
  | .star r, c => .cat (r.deriv c) (.star r)

def RE.matchList (r : RE) : List Char → Bool
  | [] => r.nullable
  | c :: cs => (r.deriv c).matchList cs

/-- Anchored full match of a whole string. -/
def RE.full (r : RE) (s : String) : Bool := r.matchList s.data

def chrR (c : Char) : RE := .cls (fun x => x == c)

/-- One literal character under re.IGNORECASE. -/
def chrI (c : Char) : RE := .cls (fun x => asciiLower x == asciiLower c)

def catL : List RE → RE
  | [] => .eps
  | r :: t => .cat r (catL t)

def litR (s : String) : RE := catL (s.data.map chrR)

def litIR (s : String) : RE := catL (s.data.map chrI)

def optR (r : RE) : RE := .alt .eps r

def plusR (r : RE) : RE := .cat r (.star r)

def digitR : RE := .cls Char.isDigit

def wsR : RE := .cls pyWs

def upperR : RE := .cls (fun c => decide (c.toNat ≥ 65 ∧ c.toNat ≤ 90))

/-- The regex metacharacter dot: any character but newline. -/
def dotR : RE := .cls (fun c => !(c == '\n'))

def anyR : RE := .cls (fun _ => true)

def backslashR : RE := chrR '\\'

/-! Patterns of the source, transcribed from the compiled literals. -/

/-- CURRENCY_PRICE_RE, from a raw string with single backslashes, hence a
working pattern: digits, optional dot plus one or two digits, one
whitespace character, three uppercase letters. -/
def CURRENCY_PRICE_RE : RE :=
  catL [plusR digitR, optR (catL [chrR '.', digitR, optR digitR]), wsR,
        upperR, upperR, upperR]

/-- ISO_DATE_RE: four digits, hyphen, two digits, hyphen, two digits. -/
def ISO_DATE_RE : RE :=
  catL [digitR, digitR, digitR, digitR, chrR '-', digitR, digitR,
        chrR '-', digitR, digitR]

/-- WEIGHT_RE as Python actually compiles it: the source doubles every
backslash inside a raw string, so each backslash-s or backslash-d pair
denotes a literal backslash followed by the letter s or d (case folded
by re.IGNORECASE).  The value must therefore contain literal backslash
characters to match. -/
def WEIGHT_RE : RE :=
  catL [backslashR, .star (chrI 's'), backslashR, plusR (chrI 'd'),
        optR (catL [backslashR, dotR, backslashR, plusR (chrI 'd')]),
        backslashR, .star (chrI 's'),
        .alt (litIR "lb") (.alt (litIR "lbs") (.alt (litIR "kg")
          (.alt (litIR "g") (litIR "oz")))),
        backslashR, .star (chrI 's')]

/-- DIMENSION_RE, broken the same way as WEIGHT_RE. -/
def DIMENSION_RE : RE :=
  catL [backslashR, .star (chrI 's'), backslashR, plusR (chrI 'd'),
        optR (catL [backslashR, dotR, backslashR, plusR (chrI 'd')]),
        backslashR, .star (chrI 's'),
        .alt (litIR "mm") (.alt (litIR "cm") (.alt (litIR "in")
          (.alt (litIR "inch") (litIR "inches")))),
        backslashR, .star (chrI 's')]

/-- The pickup_sla pattern, also written with doubled backslashes and
compiled without IGNORECASE. -/
def PICKUP_SLA_RE : RE :=
  catL [backslashR, plusR (chrR 'd'), backslashR, plusR (chrR 's'),
        backslashR, plusR (chrR 'w')]

/-- The HTML-tag detector used via re.search: an angle-bracketed run of
non-gt characters occurring anywhere in the string. -/
def htmlSearch (s : String) : Bool :=
  RE.full (catL [.star anyR, chrR '<', plusR (.cls (fun c => !(c == '>'))),
                 chrR '>', .star anyR]) s

/-- URL_RE.match: a case-insensitive http:// or https:// prefix. -/
def urlOk (s : String) : Bool :=
  "http://".data.isPrefixOf (lowerStr s).data ||
    "https://".data.isPrefixOf (lowerStr s).data

/-- ALNUM_RE: one or more of letters, digits, dot, underscore, literal
backslash (from the doubled backslash in the class) or hyphen. -/
def alnumOk (s : String) : Bool :=
  !s.data.isEmpty &&
    s.data.all (fun c => c.isAlpha || c.isDigit || c == '.' || c == '_' ||
      c == '\\' || c == '-')

/-- COUNTRY_ALPHA2_RE: exactly two letters. -/
def countryAlpha2 (s : String) : Bool :=
  match s.data with
  | [a, b] => a.isAlpha && b.isAlpha
  | _ => false

/-- DATE_RANGE_RE with its two groups: an ISO-shaped date, optional
whitespace, a slash, optional whitespace, an ISO-shaped date. -/
def dateShape (l : List Char) : Bool :=
  match l with
  | [a, b, c, d, e, f, g, h, i, j] =>
      a.isDigit && b.isDigit && c.isDigit && d.isDigit && e == '-' &&
      f.isDigit && g.isDigit && h == '-' && i.isDigit && j.isDigit
  | _ => false

def dateRangeParse (s : String) : Option (String × String) :=
  let l := s.data
  let d1 := l.take 10
  let r1 := (l.drop 10).dropWhile pyWs
  match r1 with
  | '/' :: r2 =>
      let d2 := r2.dropWhile pyWs
      if dateShape d1 && dateShape d2 then some (⟨d1⟩, ⟨d2⟩) else none
  | _ => none

/-! ### Dates.  date.today() is injected as a parameter. -/

abbrev Date := Int × Int × Int

def isLeap (y : Int) : Bool := (y % 4 == 0 && y % 100 != 0) || y % 400 == 0

def daysInMonth (y m : Int) : Int :=
  if m == 2 then (if isLeap y then 29 else 28)
  else if m == 4 || m == 6 || m == 9 || m == 11 then 30
  else 31

/-- Validity constraint of datetime.date(y, m, d). -/
def validDate (y m d : Int) : Bool :=
  1 ≤ y && y ≤ 9999 && 1 ≤ m && m ≤ 12 && 1 ≤ d && d ≤ daysInMonth y m

def dateLt (a b : Date) : Bool :=
  a.1 < b.1 || (a.1 == b.1 && (a.2.1 < b.2.1 || (a.2.1 == b.2.1 && a.2.2 < b.2.2)))

/-- Python s.split(sep) for a one-character separator. -/
def splitChar (sep : Char) : List Char → List Char → List (List Char)
  | [], cur => [cur.reverse]
  | c :: t, cur =>
      if c == sep then cur.reverse :: splitChar sep t []
      else splitChar sep t (c :: cur)

/-- is_future_date of the source: split on hyphen, parse integer parts,
build a date and compare with today; every failure path returns false. -/
def is_future_date (today : Date) (s : String) : Bool :=
  match (splitChar '-' s.data []).map (fun l => pyInt ⟨l⟩) with
  | [some y, some m, some d] => validDate y m d && dateLt today (y, m, d)
  | _ => false

/-! ### Field tables of the source. -/

def REQUIRED_FIELDS : List String :=
  ["enable_search", "enable_checkout",
   "id", "title", "description", "link",
   "product_category", "brand", "material", "weight",
   "image_link",
   "price",
   "availability", "inventory_quantity",
   "seller_name", "seller_url",
   "return_policy", "return_window"]

def RECOMMENDED_FIELDS : List String :=
  ["gtin", "mpn",
   "condition", "dimensions", "length", "width", "height",
   "age_group",
   "additional_image_link", "video_link", "model_3d_link",
   "applicable_taxes_fees", "sale_price", "sale_price_effective_date",
   "unit_pricing_measure", "base_measure", "pricing_trend",
   "availability_date", "expiration_date",
   "pickup_method", "pickup_sla",
   "item_group_id", "item_group_title", "color", "size", "size_system",
   "gender", "offer_id",
   "shipping", "delivery_estimate",
   "seller_privacy_policy", "seller_tos",
   "popularity_score", "return_rate",
   "warning", "warning_url", "age_restriction",
   "product_review_count", "product_review_rating", "store_review_count",
   "store_review_rating",
   "q_and_a", "raw_review_data",
   "related_product_id", "relationship_type",
   "geo_price", "geo_availability"]

def HEADER_ALIASES : List (String × String) :=
  [("image link", "image_link"),
   ("image-url", "image_link"),
   ("imageurl", "image_link"),
   ("product link", "link"),
   ("product-url", "link"),
   ("producturl", "link"),
   ("price_amount", "price"),
   ("availability_status", "availability"),
   ("product_category", "product_category"),
   ("sellername", "seller_name"),
   ("seller url", "seller_url"),
   ("sellerurl", "seller_url"),
   ("return policy", "return_policy"),
   ("return window", "return_window")]

/-- The mechanical part of normalize_key: strip, lower, then map hyphen
and space to underscore. -/
def transformKey (s : String) : String :=
  ⟨((stripList s.data).map asciiLower).map underscoreify⟩

/-- HEADER_ALIASES.get(kk, kk). -/
def aliasGet (k : String) : String :=
  match HEADER_ALIASES.lookup k with
  | some v => v
  | none => k

/-- normalize_key of the source. -/
def normalize_key (k : String) : String := aliasGet (transformKey k)

/-! ### Records and issues.

A raw record is an association list from key to value, a value being
either null (none) or a string; non-string JSON scalars enter the model
as their str() rendering.  The processed record r built at the top of
the per-record loop maps every header key to a stripped string. -/

abbrev Record := List (String × Option String)

abbrev BRec := List (String × String)

/-- The expression raw.get(k), coerced: absent key and null value both
become the empty string, anything else is str()-ed and stripped. -/
def pyGetStr (raw : Record) (k : String) : String :=
  match raw.lookup k with
  | some (some v) => pyStrip v
  | _ => ""

/-- The dict comprehension building r from the header key list. -/
def buildR (header : List String) (raw : Record) : BRec :=
  header.map (fun k => (k, pyGetStr raw k))

/-- r.get(k, "") and r[k] on the processed record. -/
def rget (r : BRec) (k : String) : String := (r.lookup k).getD ""

/-- The membership test (k in r) on the processed record. -/
def rhas (r : BRec) (k : String) : Bool := (r.lookup k).isSome

structure Issue where
  row_index : Option Nat
  item_id : Option String
  field : String
  rule_id : String
  severity : String
  message : String
  sample_value : Option String
  remediation : List String
deriving DecidableEq, Repr

structure Summary where
  items_total : Nat
  items_with_errors : Nat
  items_with_warnings : Nat
  pass_rate : ℚ
deriving DecidableEq, Repr

structure ValidateResponse where
  summary : Summary
  issues : List Issue
deriving DecidableEq, Repr

/-- The Issue built by the helper push_issue: row index always the
current record, item id the record's id or null when empty, sample
stringified unless null, empty remediation. -/
def mkIss (idx : Nat) (rid field rule sev msg : String)
    (sample : Option String) : Issue :=
  { row_index := some idx
    item_id := if rid = "" then none else some rid
    field := field
    rule_id := rule
    severity := sev
    message := msg
    sample_value := sample
    remediation := [] }

/-- Python s.isupper() on ASCII text: at least one cased character and
no lower-case one. -/
def pyIsUpper (s : String) : Bool :=
  s.data.any (fun c => c.isAlpha) && s.data.all (fun c => !c.isLower)

/-- parse_price of the source: strip, split on whitespace, demand
exactly two parts, float the first. -/
def parse_price (s : String) : Option (PyNum × String) :=
  match pyWords (pyStrip s) with
  | [a, b] => (pyFloat a).map (fun q => (q, b))
  | _ => none

/-! ### The per-record rule battery, one definition per contiguous block
of the source, in source order.  Arguments named after the local
variables of validate_records. -/

def flagIssues (idx : Nat) (rid es ec : String) : List Issue :=
  (if ¬(es = "true" ∨ es = "false") then
    [mkIss idx rid "enable_search" "OF-100" "error"
      "enable_search must be \"true\" or \"false\" (lower-case)." (some es)]
   else []) ++
  (if ¬(ec = "true" ∨ ec = "false") then
    [mkIss idx rid "enable_checkout" "OF-101" "error"
      "enable_checkout must be \"true\" or \"false\" (lower-case)." (some ec)]
   else []) ++
  (if ec = "true" ∧ es ≠ "true" then
    [mkIss idx rid "enable_checkout" "OF-102" "error"
      "enable_checkout can only be true when enable_search is true." (some ec)]
   else [])

def idIssues (idx : Nat) (seen : Finset String) (rid : String)
    (sampleId : Option String) : List Issue :=
  if rid = "" then
    [mkIss idx rid "id" "OF-110" "error" "id is required." sampleId]
  else
    (if rid.length > 100 then
      [mkIss idx rid "id" "OF-111" "error" "id exceeds 100 characters."
        (some (rid.take 120))]
     else []) ++
    (if ¬ alnumOk rid then
      [mkIss idx rid "id" "OF-112" "warning"
        "id should be alphanumeric plus . _ - only." (some rid)]
     else []) ++
    (if rid ∈ seen then
      [mkIss idx rid "id" "OF-113" "error" "Duplicate id found." (some rid)]
     else [])

def titleIssues (idx : Nat) (rid title : String) : List Issue :=
  if title = "" then
    [mkIss idx rid "title" "OF-120" "error" "title is required." (some title)]
  else
    (if title.length > 150 then
      [mkIss idx rid "title" "OF-121" "warning" "title exceeds 150 characters."
        (some (title.take 180))]
     else []) ++
    (if pyIsUpper title then
      [mkIss idx rid "title" "OF-122" "warning" "Avoid ALL-CAPS titles."
        (some title)]
     else [])

def descIssues (idx : Nat) (rid desc : String) : List Issue :=
  if desc = "" then
    [mkIss idx rid "description" "OF-130" "error" "description is required."
      (some desc)]
  else
    (if desc.length > 5000 then
      [mkIss idx rid "description" "OF-131" "warning"
        "description exceeds 5,000 characters." (some (desc.take 80))]
     else []) ++
    (if htmlSearch desc then
      [mkIss idx rid "description" "OF-132" "warning"
        "description should be plain text (HTML detected)." (some (desc.take 80))]
     else [])

def linkIssues (idx : Nat) (rid link : String) : List Issue :=
  if link = "" then
    [mkIss idx rid "link" "OF-140" "error" "link is required." (some link)]
  else
    if ¬ urlOk link then
      [mkIss idx rid "link" "OF-141" "error"
        "link must be a valid http(s) URL." (some link)]
    else []

def pcIssues (idx : Nat) (rid pc : String) : List Issue :=
  if pc = "" then
    [mkIss idx rid "product_category" "OF-150" "error"
      "product_category is required." (some pc)]
  else
    if ¬ (pc.data.any (fun c => c == '>')) then
      [mkIss idx rid "product_category" "OF-151" "warning"
        "product_category should use '>' as a separator (e.g., A > B)." (some pc)]
    else []

def brandIssues (idx : Nat) (rid brand : String) : List Issue :=
  if brand = "" then
    [mkIss idx rid "brand" "OF-160" "error" "brand is required." (some brand)]
  else if brand.length > 70 then
    [mkIss idx rid "brand" "OF-161" "warning" "brand exceeds 70 characters."
      (some (brand.take 90))]
  else []

def materialIssues (idx : Nat) (rid material : String) : List Issue :=
  if material = "" then
    [mkIss idx rid "material" "OF-170" "error" "material is required."
      (some material)]
  else if material.length > 100 then
    [mkIss idx rid "material" "OF-171" "warning"
      "material exceeds 100 characters." (some (material.take 120))]
  else []

def weightIssues (idx : Nat) (rid weight : String) : List Issue :=
  if weight = "" then
    [mkIss idx rid "weight" "OF-180" "error"
      "weight is required (e.g., '1.5 lb')." (some weight)]
  else
    if ¬ (WEIGHT_RE.full weight) then
      [mkIss idx rid "weight" "OF-181" "error"
        "weight must be a positive number with unit (lb, lbs, kg, g, oz)."
        (some weight)]
    else []

def imgIssues (idx : Nat) (rid img : String) : List Issue :=
  if img = "" then
    [mkIss idx rid "image_link" "OF-190" "error" "image_link is required."
      (some img)]
  else
    if ¬ urlOk img then
      [mkIss idx rid "image_link" "OF-191" "error"
        "image_link must be a valid http(s) URL." (some img)]
    else []

def priceIssues (idx : Nat) (rid price : String) : List Issue :=
  if price = "" then
    [mkIss idx rid "price" "OF-200" "error" "price is required." (some price)]
  else
    if ¬ (CURRENCY_PRICE_RE.full price) then
      [mkIss idx rid "price" "OF-201" "error"
        "price must be \"<number> <ISO4217>\", e.g., \"79.99 USD\"." (some price)]
    else []

def availIssues (idx : Nat) (rid avail : String) : List Issue :=
  if avail = "" then
    [mkIss idx rid "availability" "OF-210" "error" "availability is required."
      (some avail)]
  else if avail ∉ (["in_stock", "out_of_stock", "preorder"] : List String) then
    [mkIss idx rid "availability" "OF-211" "error"
      "availability must be one of: \"in_stock\", \"out_of_stock\", \"preorder\"."
      (some avail)]
  else []

def invqIssues (idx : Nat) (rid invq : String) : List Issue :=
  if invq = "" then
    [mkIss idx rid "inventory_quantity" "OF-212" "error"
      "inventory_quantity is required." (some invq)]
  else
    match pyIntFloat invq with
    | none =>
        [mkIss idx rid "inventory_quantity" "OF-213" "error"
          "inventory_quantity must be a non-negative integer." (some invq)]
    | some iv =>
        if iv < 0 then
          [mkIss idx rid "inventory_quantity" "OF-213" "error"
            "inventory_quantity must be a non-negative integer." (some invq)]
        else []

def preorderIssues (today : Date) (idx : Nat) (rid avail ad : String) :
    List Issue :=
  if avail = "preorder" then
    if ad = "" ∨ ¬ (ISO_DATE_RE.full ad) ∨ ¬ (is_future_date today ad) then
      [mkIss idx rid "availability_date" "OF-214" "error"
        "availability_date (YYYY-MM-DD) is required for preorder and must be a future date."
        (some ad)]
    else []
  else []

def variantIssues (idx : Nat) (rid color size ssys gender igid : String)
    (igidSample : Option String) : List Issue :=
  if (color ≠ "" ∨ size ≠ "" ∨ ssys ≠ "" ∨ gender ≠ "") ∧ igid = "" then
    [mkIss idx rid "item_group_id" "OF-230" "error"
      "item_group_id is required when variant attributes are present."
      igidSample]
  else []

def genderIssues (idx : Nat) (rid gender : String) : List Issue :=
  if gender ≠ "" ∧ lowerStr gender ∉ (["male", "female", "unisex"] : List String) then
    [mkIss idx rid "gender" "OF-231" "warning"
      "gender must be one of: \"male\", \"female\", \"unisex\"." (some gender)]
  else []

def sizeSystemIssues (idx : Nat) (rid ssys : String) : List Issue :=
  if ssys ≠ "" ∧ ¬ countryAlpha2 ssys then
    [mkIss idx rid "size_system" "OF-232" "warning"
      "size_system must be a 2-letter ISO 3166 country code." (some ssys)]
  else []

def conditionIssues (idx : Nat) (rid cond : String) : List Issue :=
  if cond ≠ "" ∧ lowerStr cond ∉ (["new", "refurbished", "used"] : List String) then
    [mkIss idx rid "condition" "OF-233" "warning"
      "condition must be one of: \"new\", \"refurbished\", \"used\"." (some cond)]
  else []

def ageGroupIssues (idx : Nat) (rid ag : String) : List Issue :=
  if ag ≠ "" ∧
      lowerStr ag ∉ (["newborn", "infant", "toddler", "kids", "adult"] : List String) then
    [mkIss idx rid "age_group" "OF-234" "warning"
      "age_group must be one of: \"newborn\", \"infant\", \"toddler\", \"kids\", \"adult\"."
      (some ag)]
  else []

def dimsIssues (idx : Nat) (rid lenv widv heiv : String) : List Issue :=
  (if ¬ ([lenv, widv, heiv].filter (fun d => d ≠ "")).isEmpty ∧
      ([lenv, widv, heiv].filter (fun d => d ≠ "")).length ≠ 3 then
    [mkIss idx rid "length/width/height" "OF-240" "warning"
      "Provide all of length, width, and height when using individual dimension fields."
      (some (String.intercalate ", " ([lenv, widv, heiv].filter (fun d => d ≠ ""))))]
   else []) ++
  (if lenv ≠ "" ∧ ¬ (DIMENSION_RE.full lenv) then
    [mkIss idx rid "length" "OF-241" "warning"
      "length should include units (mm/cm/in)." (some lenv)]
   else []) ++
  (if widv ≠ "" ∧ ¬ (DIMENSION_RE.full widv) then
    [mkIss idx rid "width" "OF-241" "warning"
      "width should include units (mm/cm/in)." (some widv)]
   else []) ++
  (if heiv ≠ "" ∧ ¬ (DIMENSION_RE.full heiv) then
    [mkIss idx rid "height" "OF-241" "warning"
      "height should include units (mm/cm/in)." (some heiv)]
   else [])

def mediaOptIssues (idx : Nat) (rid video m3d : String) : List Issue :=
  (if video ≠ "" ∧ ¬ urlOk video then
    [mkIss idx rid "video_link" "OF-250" "warning"
      "video_link must be a valid http(s) URL." (some video)]
   else []) ++
  (if m3d ≠ "" ∧ ¬ urlOk m3d then
    [mkIss idx rid "model_3d_link" "OF-251" "warning"
      "model_3d_link must be a valid http(s) URL." (some m3d)]
   else [])

def saleIssues (idx : Nat) (rid price sp spd : String) : List Issue :=
  if sp ≠ "" then
    (if ¬ (CURRENCY_PRICE_RE.full sp) then
      [mkIss idx rid "sale_price" "OF-260" "error"
        "sale_price must be \"<number> <ISO4217>\"." (some sp)]
     else
      match parse_price price, parse_price sp with
      | some p, some s =>
          if pyNumLt p.1 s.1 then
            [mkIss idx rid "sale_price" "OF-261" "error"
              "sale_price must be less than or equal to price." (some sp)]
          else []
      | _, _ => []) ++
    (match dateRangeParse spd with
     | none =>
        [mkIss idx rid "sale_price_effective_date" "OF-262" "error"
          "sale_price_effective_date is required with sale_price and must be 'YYYY-MM-DD / YYYY-MM-DD'."
          (some spd)]
     | some (st, en) =>
        if pyStrGe st en then
          [mkIss idx rid "sale_price_effective_date" "OF-263" "error"
            "sale_price_effective_date start must precede end." (some spd)]
        else [])
  else []

def unitPricingIssues (idx : Nat) (rid upm bm : String) : List Issue :=
  if (upm ≠ "" ∨ bm ≠ "") ∧ (upm = "" ∨ bm = "") then
    [mkIss idx rid "unit_pricing_measure/base_measure" "OF-270" "error"
      "unit_pricing_measure and base_measure must be provided together."
      (some (upm ++ " | " ++ bm))]
  else []

def expirationIssues (today : Date) (idx : Nat) (rid exp : String) :
    List Issue :=
  if exp ≠ "" ∧ (¬ (ISO_DATE_RE.full exp) ∨ ¬ (is_future_date today exp)) then
    [mkIss idx rid "expiration_date" "OF-280" "warning"
      "expiration_date must be a future ISO date (YYYY-MM-DD)." (some exp)]
  else []

def pickupIssues (idx : Nat) (rid pm psla : String) : List Issue :=
  (if pm ≠ "" ∧ pm ∉ (["in_store", "reserve", "not_supported"] : List String) then
    [mkIss idx rid "pickup_method" "OF-281" "warning"
      "pickup_method must be one of: \"in_store\", \"reserve\", \"not_supported\"."
      (some pm)]
   else []) ++
  (if psla ≠ "" ∧ ¬ (PICKUP_SLA_RE.full psla) then
    [mkIss idx rid "pickup_sla" "OF-282" "warning"
      "pickup_sla should be a positive integer + unit (e.g., '1 day')." (some psla)]
   else [])

def sellerIssues (idx : Nat) (rid sname : String) (snameSample : Option String)
    (surl : String) (surlSample : Option String) : List Issue :=
  (if sname = "" then
    [mkIss idx rid "seller_name" "OF-290" "error" "seller_name is required."
      snameSample]
   else if sname.length > 70 then
    [mkIss idx rid "seller_name" "OF-291" "warning"
      "seller_name exceeds 70 characters." (some (sname.take 80))]
   else []) ++
  (if surl = "" then
    [mkIss idx rid "seller_url" "OF-292" "error" "seller_url is required."
      surlSample]
   else if ¬ urlOk surl then
    [mkIss idx rid "seller_url" "OF-293" "error"
      "seller_url must be a valid http(s) URL." (some surl)]
   else [])

def checkoutDepIssues (idx : Nat) (rid ec spp : String)
    (sppSample : Option String) (tos : String) (tosSample : Option String) :
    List Issue :=
  if ec = "true" then
    (if spp = "" ∨ ¬ urlOk spp then
      [mkIss idx rid "seller_privacy_policy" "OF-294" "error"
        "seller_privacy_policy URL is required when enable_checkout is true."
        sppSample]
     else []) ++
    (if tos = "" ∨ ¬ urlOk tos then
      [mkIss idx rid "seller_tos" "OF-295" "error"
        "seller_tos URL is required when enable_checkout is true." tosSample]
     else [])
  else []

def returnsIssues (idx : Nat) (rid rp : String) (rpSample : Option String)
    (rw : String) (rwSample : Option String) : List Issue :=
  (if rp = "" ∨ ¬ urlOk rp then
    [mkIss idx rid "return_policy" "OF-296" "error"
      "return_policy URL is required." rpSample]
   else []) ++
  (if rw = "" then
    [mkIss idx rid "return_window" "OF-297" "error"
      "return_window (days) is required." rwSample]
   else
    match pyInt rw with
    | none =>
        [mkIss idx rid "return_window" "OF-298" "error"
          "return_window must be a positive integer (days)." (some rw)]
    | some v =>
        if v ≤ 0 then
          [mkIss idx rid "return_window" "OF-298" "error"
            "return_window must be a positive integer (days)." (some rw)]
        else [])

def relIssues (idx : Nat) (rid rel : String) : List Issue :=
  if rel ≠ "" ∧
      rel ∉ (["part_of_set", "required_part", "often_bought_with", "substitute",
              "different_brand", "accessory"] : List String) then
    [mkIss idx rid "relationship_type" "OF-299" "warning"
      "relationship_type must be one of the documented values." (some rel)]
  else []

def recIssues (idx : Nat) (rid : String) (r : BRec) : List Issue :=
  RECOMMENDED_FIELDS.foldr
    (fun f acc =>
      (if rhas r f ∧ rget r f = "" then
        [mkIss idx rid f "OF-REC" "warning"
          ("\"" ++ f ++ "\" is recommended but empty.") (r.lookup f)]
       else []) ++ acc) []

/-- The whole per-record battery, in source order, on the processed
record r. -/
def checkR (today : Date) (seen : Finset String) (idx : Nat) (r : BRec) :
    List Issue :=
  let rid := rget r "id"
  let es := lowerStr (rget r "enable_search")
  let ec := lowerStr (rget r "enable_checkout")
  let avail := lowerStr (rget r "availability")
  flagIssues idx rid es ec
  ++ idIssues idx seen rid (r.lookup "id")
  ++ titleIssues idx rid (rget r "title")
  ++ descIssues idx rid (rget r "description")
  ++ linkIssues idx rid (rget r "link")
  ++ pcIssues idx rid (rget r "product_category")
  ++ brandIssues idx rid (rget r "brand")
  ++ materialIssues idx rid (rget r "material")
  ++ weightIssues idx rid (rget r "weight")
  ++ imgIssues idx rid (rget r "image_link")
  ++ priceIssues idx rid (rget r "price")
  ++ availIssues idx rid avail
  ++ invqIssues idx rid (rget r "inventory_quantity")
  ++ preorderIssues today idx rid avail (rget r "availability_date")
  ++ variantIssues idx rid (rget r "color") (rget r "size")
      (rget r "size_system") (rget r "gender") (rget r "item_group_id")
      (r.lookup "item_group_id")
  ++ genderIssues idx rid (rget r "gender")
  ++ sizeSystemIssues idx rid (rget r "size_system")
  ++ conditionIssues idx rid (rget r "condition")
  ++ ageGroupIssues idx rid (rget r "age_group")
  ++ dimsIssues idx rid (rget r "length") (rget r "width") (rget r "height")
  ++ mediaOptIssues idx rid (rget r "video_link") (rget r "model_3d_link")
  ++ saleIssues idx rid (rget r "price") (rget r "sale_price")
      (rget r "sale_price_effective_date")
  ++ unitPricingIssues idx rid (rget r "unit_pricing_measure")
      (rget r "base_measure")
  ++ expirationIssues today idx rid (rget r "expiration_date")
  ++ pickupIssues idx rid (rget r "pickup_method") (rget r "pickup_sla")
  ++ sellerIssues idx rid (rget r "seller_name") (r.lookup "seller_name")
      (rget r "seller_url") (r.lookup "seller_url")
  ++ checkoutDepIssues idx rid ec (rget r "seller_privacy_policy")
      (r.lookup "seller_privacy_policy") (rget r "seller_tos")
      (r.lookup "seller_tos")
  ++ returnsIssues idx rid (rget r "return_policy") (r.lookup "return_policy")
      (rget r "return_window") (r.lookup "return_window")
  ++ relIssues idx rid (rget r "relationship_type")
  ++ recIssues idx rid r

/-! ### The run loop and the aggregator. -/

/-- The update of seen_ids at the end of the id block: the id is added
only in the non-empty branch. -/
def idUpdate (seen : Finset String) (rid : String) : Finset String :=
  if rid = "" then seen else insert rid seen

structure LoopState where
  issues : List Issue
  error_rows : Finset Nat
  seen_ids : Finset String
  total : Nat
deriving DecidableEq

/-- One iteration of the record loop.  The source adds the row index to
error_rows at each error push; accumulating the record's issues first
and inserting the index when any of them is an error yields the same
set and the same issue order. -/
def stepRecord (today : Date) (header : List String) (idx : Nat)
    (st : LoopState) (raw : Record) : LoopState :=
  let r := buildR header raw
  let iss := checkR today st.seen_ids idx r
  { issues := st.issues ++ iss
    error_rows :=
      if iss.any (fun i => i.severity == "error") then insert idx st.error_rows
      else st.error_rows
    seen_ids := idUpdate st.seen_ids (rget r "id")
    total := st.total + 1 }

def runLoop (today : Date) (header : List String) :
    Nat → LoopState → List Record → LoopState
  | _, st, [] => st
  | idx, st, raw :: rest =>
      runLoop today header (idx + 1) (stepRecord today header idx st raw) rest

/-- Round-half-even of the fraction x / b for positive b, on integers:
the rounding rule of Python round() applied to an exact value. -/
def roundHalfEvenDiv (x b : Int) : Int :=
  let n := Int.fdiv x b
  let r := x - n * b
  if 2 * r < b then n
  else if b < 2 * r then n + 1
  else if n % 2 = 0 then n else n + 1

/-- Python round((t - e) / t, 4) as an exact rational, for t > 0. -/
def pyRound4Ratio (t e : Nat) : ℚ :=
  mkRat (roundHalfEvenDiv (10000 * ((t : Int) - (e : Int))) (t : Int)) 10000

def countSev (l : List Issue) (s : String) : Nat :=
  (l.filter (fun i => i.severity == s)).length

/-- The header: the key list of the first record, empty when there are
no records. -/
def headerOf (records : List Record) : List String :=
  match records with
  | [] => []
  | r :: _ => r.map Prod.fst

def reqMissingIssue (f : String) : Issue :=
  { row_index := none
    item_id := none
    field := f
    rule_id := "OF-REQ-MISSING"
    severity := "error"
    message := "Required field \"" ++ f ++ "\" is missing from header."
    sample_value := none
    remediation := ["Add \"" ++ f ++ "\" to your feed header."] }

/-- validate_records of the source, with the ambient date.today()
injected as the today parameter. -/
def validate_records (today : Date) (records : List Record) :
    ValidateResponse :=
  let header := headerOf records
  let issues0 := (REQUIRED_FIELDS.filter (fun f => ¬ header.contains f)).map
    reqMissingIssue
  if issues0.any (fun i => i.rule_id == "OF-REQ-MISSING") then
    { summary :=
        { items_total := 0
          items_with_errors := countSev issues0 "error"
          items_with_warnings := countSev issues0 "warning"
          pass_rate := 0 }
      issues := issues0 }
  else
    let st := runLoop today header 0
      { issues := issues0, error_rows := ∅, seen_ids := ∅, total := 0 } records
    { summary :=
        { items_total := st.total
          items_with_errors := countSev st.issues "error"
          items_with_warnings := countSev st.issues "warning"
          pass_rate :=
            if st.total = 0 then 0
            else pyRound4Ratio st.total st.error_rows.card }
      issues := st.issues }

/-- Required-presence check on the header, the guard of the early
return. -/
def headerOK (records : List Record) : Prop :=
  ∀ f ∈ REQUIRED_FIELDS, f ∈ headerOf records

instance (records : List Record) : Decidable (headerOK records) := by
  unfold headerOK; infer_instance
/-- The normalized id of a record, read through the header. -/
def ridOf (header : List String) (raw : Record) : String :=
  rget (buildR header raw) "id"

/-- The issues the loop contributes, as a standalone recursion. -/
def issuesFrom (today : Date) (header : List String) :
    Nat → Finset String → List Record → List Issue
  | _, _, [] => []
  | idx, seen, raw :: rest =>
      checkR today seen idx (buildR header raw) ++
        issuesFrom today header (idx + 1) (idUpdate seen (ridOf header raw)) rest

/-- The error rows the loop contributes. -/
def errRowsFrom (today : Date) (header : List String) :
    Nat → Finset String → List Record → Finset Nat
  | _, _, [] => ∅
  | idx, seen, raw :: rest =>
      (if (checkR today seen idx (buildR header raw)).any
          (fun i => i.severity == "error") then {idx} else ∅) ∪
        errRowsFrom today header (idx + 1) (idUpdate seen (ridOf header raw)) rest

/-- The seen-ids set after a list of records. -/
def seenFrom (header : List String) : Finset String → List Record → Finset String
  | seen, [] => seen
  | seen, raw :: rest => seenFrom header (idUpdate seen (ridOf header raw)) rest

/-- The shape of each per-issue fact: row index, severity tier, rule id. -/
def IFacts (idx : Nat) (rules : List String) (i : Issue) : Prop :=
  i.row_index = some idx ∧ (i.severity = "error" ∨ i.severity = "warning") ∧
    i.rule_id ∈ rules

/-- Python-level coercion of a raw value: null becomes the empty
string, a string is stripped. -/
def pyCoerce : Option String → String
  | none => ""
  | some s => pyStrip s

/-- Replace the value stored under an existing key of a record. -/
def setVal (rec : Record) (k : String) (v : Option String) : Record :=
  rec.map (fun kv => if kv.1 == k then (kv.1, v) else kv)

/-- Replace one value of one record in a record list. -/
def setValAt : List Record → Nat → String → Option String → List Record
  | [], _, _, _ => []
  | r :: t, 0, k, v => setVal r k v :: t
  | r :: t, n + 1, k, v => r :: setValAt t n k v

/-! ### Concrete inputs used by the claim theorems.  The weight value
of the base record is the only kind of string the (broken) WEIGHT_RE
accepts: literal backslashes around the letter d and the unit. -/

def today0 : Date := (2025, 6, 15)

def baseRec : Record :=
  [("enable_search", some "false"), ("enable_checkout", some "false"),
   ("id", some "SKU1"), ("title", some "Nice Product"),
   ("description", some "A sturdy widget."),
   ("link", some "https://example.com/p"),
   ("product_category", some "Home > Tools"), ("brand", some "Acme"),
   ("material", some "Steel"), ("weight", some "\\\\d\\lb\\"),
   ("image_link", some "https://example.com/i.jpg"),
   ("price", some "79.99 USD"),
   ("availability", some "in_stock"), ("inventory_quantity", some "5"),
   ("seller_name", some "Acme"), ("seller_url", some "https://example.com"),
   ("return_policy", some "https://example.com/returns"),
   ("return_window", some "30")]

/-- Three records, the third with an empty title: exactly one record in
error. -/
def rs3 : List Record :=
  [baseRec, setVal baseRec "id" (some "SKU2"),
   setVal (setVal baseRec "id" (some "SKU3")) "title" (some "")]

/-- The base record with an availability_date key that is present but
empty, under availability in_stock. -/
def rec7 : Record := baseRec ++ [("availability_date", some "")]

/-- The base record with malformed price, inventory, availability date
and return window values. -/
def badRec : Record :=
  setVal (setVal (setVal (setVal (baseRec ++ [("availability_date", some "2020-13-99")])
    "price" (some "abc")) "inventory_quantity" (some "xyz"))
    "return_window" (some "ten")) "availability" (some "preorder")


/-! ### Lemmas about normalize_key (for claim C8). -/

theorem toNat_ofNat_valid (n : Nat) (h : n.isValidChar) :
    (Char.ofNat n).toNat = n := by
  simp [Char.ofNat, h, Char.ofNatAux, Char.toNat]
  rfl

theorem asciiLower_toNat_of_upper (c : Char) (h : c.toNat ≥ 65 ∧ c.toNat ≤ 90) :
    (asciiLower c).toNat = c.toNat + 32 := by
  have hv : (c.toNat + 32).isValidChar := by
    unfold Nat.isValidChar
    exact Or.inl (by omega)
  simp [asciiLower, h]
  exact toNat_ofNat_valid _ hv

theorem underscoreify_of_ne (c : Char) (h : c.toNat ≠ 45 ∧ c.toNat ≠ 32) :
    underscoreify c = c := by
  unfold underscoreify
  have hb : (c.toNat == 45 || c.toNat == 32) = false := by
    simp only [Bool.or_eq_false_iff, beq_eq_false_iff_ne, ne_eq]
    exact ⟨h.1, h.2⟩
  rw [hb]
  rfl

theorem underscoreify_of_hit (c : Char) (h : c.toNat = 45 ∨ c.toNat = 32) :
    underscoreify c = '_' := by
  unfold underscoreify
  have hb : (c.toNat == 45 || c.toNat == 32) = true := by
    simp only [Bool.or_eq_true, beq_iff_eq]
    exact h
  rw [hb]
  rfl

theorem asciiLower_of_not_upper (c : Char) (h : ¬(c.toNat ≥ 65 ∧ c.toNat ≤ 90)) :
    asciiLower c = c := by
  unfold asciiLower
  rw [if_neg h]

/-- The composite character transform applied by transformKey. -/
theorem keyChar_idem (c : Char) :
    underscoreify (asciiLower (underscoreify (asciiLower c))) =
      underscoreify (asciiLower c) := by
  by_cases h : c.toNat ≥ 65 ∧ c.toNat ≤ 90
  · have ht : (asciiLower c).toNat = c.toNat + 32 := asciiLower_toNat_of_upper c h
    have h1 : underscoreify (asciiLower c) = asciiLower c :=
      underscoreify_of_ne _ (by omega)
    have h2 : asciiLower (asciiLower c) = asciiLower c :=
      asciiLower_of_not_upper _ (by omega)
    rw [h1, h2, h1]
  · have h0 : asciiLower c = c := asciiLower_of_not_upper c h
    rw [h0]
    by_cases hu : c.toNat = 45 ∨ c.toNat = 32
    · have h1 : underscoreify c = '_' := underscoreify_of_hit c hu
      have h2 : asciiLower '_' = '_' := asciiLower_of_not_upper _ (by decide)
      have h3 : underscoreify '_' = '_' := underscoreify_of_ne _ (by decide)
      rw [h1, h2, h3]
    · have h1 : underscoreify c = c := underscoreify_of_ne c (by omega)
      rw [h1, h0, h1]

/-- Lower-casing and underscore replacement never turn a non-whitespace
character into whitespace. -/
theorem keyChar_not_ws (c : Char) (h : pyWs c = false) :
    pyWs (underscoreify (asciiLower c)) = false := by
  have hn : c.toNat ≠ 32 ∧ c.toNat ≠ 9 ∧ c.toNat ≠ 10 ∧ c.toNat ≠ 13 ∧
      c.toNat ≠ 11 ∧ c.toNat ≠ 12 := by
    unfold pyWs at h
    simp only [Bool.or_eq_false_iff, beq_eq_false_iff_ne, ne_eq] at h
    tauto
  by_cases hc : c.toNat ≥ 65 ∧ c.toNat ≤ 90
  · have ht : (asciiLower c).toNat = c.toNat + 32 := asciiLower_toNat_of_upper c hc
    have h1 : underscoreify (asciiLower c) = asciiLower c :=
      underscoreify_of_ne _ (by omega)
    rw [h1]
    unfold pyWs
    simp only [Bool.or_eq_false_iff, beq_eq_false_iff_ne, ne_eq, ht]
    omega
  · have h0 : asciiLower c = c := asciiLower_of_not_upper c hc
    rw [h0]
    by_cases hu : c.toNat = 45 ∨ c.toNat = 32
    · rw [underscoreify_of_hit c hu]
      decide
    · rw [underscoreify_of_ne c (by omega)]
      exact h

theorem dropWhile_head_not (p : Char → Bool) :
    ∀ (l : List Char) (x : Char) (xs : List Char),
      l.dropWhile p = x :: xs → p x = false := by
  intro l
  induction l with
  | nil => intro x xs h; simp [List.dropWhile] at h
  | cons a t ih =>
      intro x xs h
      by_cases ha : p a
      · rw [List.dropWhile_cons_of_pos ha] at h
        exact ih x xs h
      · rw [List.dropWhile_cons_of_neg ha] at h
        cases h
        exact Bool.eq_false_iff.mpr ha

theorem dropWhile_is_suffix (p : Char → Bool) :
    ∀ (l : List Char), ∃ t, l = t ++ l.dropWhile p := by
  intro l
  induction l with
  | nil => exact ⟨[], rfl⟩
  | cons a t ih =>
      by_cases ha : p a
      · obtain ⟨u, hu⟩ := ih
        exact ⟨a :: u, by rw [List.dropWhile_cons_of_pos ha]; simpa using hu⟩
      · exact ⟨[], by simp [List.dropWhile_cons_of_neg ha]⟩

theorem stripList_head_not (l : List Char) :
    ∀ x, (stripList l).head? = some x → pyWs x = false := by
  intro x hx
  unfold stripList at hx
  set A := l.dropWhile pyWs with hA
  set D := A.reverse.dropWhile pyWs with hD
  obtain ⟨u, hu⟩ := dropWhile_is_suffix pyWs A.reverse
  have hAeq : A = D.reverse ++ u.reverse := by
    have := congrArg List.reverse hu
    simpa [List.reverse_append] using this
  rcases hDr : D.reverse with _ | ⟨y, ys⟩
  · rw [hDr] at hx; simp at hx
  · rw [hDr] at hx
    simp at hx
    rw [← hx]
    have hcons : A = y :: (ys ++ u.reverse) := by rw [hAeq, hDr]; simp
    exact dropWhile_head_not pyWs l y _ (by rw [← hA]; exact hcons)

theorem stripList_last_not (l : List Char) :
    ∀ x, (stripList l).getLast? = some x → pyWs x = false := by
  intro x hx
  unfold stripList at hx
  rw [List.getLast?_reverse] at hx
  rcases hD : (l.dropWhile pyWs).reverse.dropWhile pyWs with _ | ⟨y, ys⟩
  · rw [hD] at hx; simp at hx
  · rw [hD] at hx
    simp at hx
    rw [← hx]
    exact dropWhile_head_not pyWs (l.dropWhile pyWs).reverse y ys hD

theorem stripList_eq_self (l : List Char)
    (h1 : ∀ x, l.head? = some x → pyWs x = false)
    (h2 : ∀ x, l.getLast? = some x → pyWs x = false) :
    stripList l = l := by
  have e1 : l.dropWhile pyWs = l := by
    cases l with
    | nil => rfl
    | cons a t =>
        have : pyWs a = false := h1 a (by simp)
        rw [List.dropWhile_cons_of_neg (by simp [this])]
  have e2 : l.reverse.dropWhile pyWs = l.reverse := by
    cases hr : l.reverse with
    | nil => rfl
    | cons a t =>
        have ha : l.getLast? = some a := by
          rw [← List.head?_reverse, hr]; rfl
        have : pyWs a = false := h2 a ha
        rw [List.dropWhile_cons_of_neg (by simp [this])]
  unfold stripList
  rw [e1, e2, List.reverse_reverse]

theorem stripList_idem (l : List Char) : stripList (stripList l) = stripList l :=
  stripList_eq_self _ (stripList_head_not l) (stripList_last_not l)

theorem data_mk (l : List Char) : (String.mk l).data = l := rfl

theorem transformKey_data (s : String) :
    (transformKey s).data =
      (stripList s.data).map (fun c => underscoreify (asciiLower c)) := by
  unfold transformKey
  rw [data_mk, List.map_map]
  rfl

theorem transformKey_idem (s : String) :
    transformKey (transformKey s) = transformKey s := by
  have hstrip :
      stripList ((stripList s.data).map (fun c => underscoreify (asciiLower c))) =
        (stripList s.data).map (fun c => underscoreify (asciiLower c)) := by
    apply stripList_eq_self
    · intro x hx
      rw [List.head?_map] at hx
      rcases hh : (stripList s.data).head? with _ | y
      · rw [hh] at hx; simp at hx
      · rw [hh] at hx
        simp at hx
        subst hx
        exact keyChar_not_ws y (stripList_head_not s.data y hh)
    · intro x hx
      rw [List.getLast?_map] at hx
      rcases hh : (stripList s.data).getLast? with _ | y
      · rw [hh] at hx; simp at hx
      · rw [hh] at hx
        simp at hx
        subst hx
        exact keyChar_not_ws y (stripList_last_not s.data y hh)
  apply String.ext
  calc (transformKey (transformKey s)).data
      = (stripList (transformKey s).data).map
          (fun c => underscoreify (asciiLower c)) := transformKey_data _
    _ = (stripList ((stripList s.data).map
          (fun c => underscoreify (asciiLower c)))).map
          (fun c => underscoreify (asciiLower c)) := by rw [transformKey_data]
    _ = (((stripList s.data).map (fun c => underscoreify (asciiLower c))).map
          (fun c => underscoreify (asciiLower c))) := by rw [hstrip]
    _ = (stripList s.data).map
          ((fun c => underscoreify (asciiLower c)) ∘
            (fun c => underscoreify (asciiLower c))) := List.map_map _ _ _
    _ = (stripList s.data).map (fun c => underscoreify (asciiLower c)) :=
          List.map_congr_left (fun a _ => keyChar_idem a)
    _ = (transformKey s).data := (transformKey_data _).symm

theorem lookup_mem {k v : String} :
    ∀ {l : List (String × String)}, List.lookup k l = some v → (k, v) ∈ l := by
  intro l
  induction l with
  | nil => intro h; simp [List.lookup] at h
  | cons a t ih =>
      intro h
      rw [List.lookup] at h
      cases hk : (k == a.1) with
      | true =>
          rw [hk] at h
          cases h
          exact List.mem_cons.mpr (Or.inl (by rw [beq_iff_eq.mp hk]))
      | false =>
          rw [hk] at h
          exact List.mem_cons_of_mem _ (ih h)

/-- Every value of the alias table is itself in normal form: fixed by
the mechanical transform and not an alias key (product_category maps to
itself). -/
theorem alias_values_normal :
    HEADER_ALIASES.all
      (fun kv => transformKey kv.2 == kv.2 && aliasGet kv.2 == kv.2) = true := by
  decide

theorem normalize_key_idem (k : String) :
    normalize_key (normalize_key k) = normalize_key k := by
  unfold normalize_key
  rcases h : List.lookup (transformKey k) HEADER_ALIASES with _ | v
  · have e : aliasGet (transformKey k) = transformKey k := by
      unfold aliasGet; rw [h]
    rw [e, transformKey_idem, e]
  · have e : aliasGet (transformKey k) = v := by
      unfold aliasGet; rw [h]
    rw [e]
    have hm : (transformKey k, v) ∈ HEADER_ALIASES := lookup_mem h
    have hv := (List.all_eq_true.mp alias_values_normal) _ hm
    simp only [Bool.and_eq_true, beq_iff_eq] at hv
    rw [hv.1, hv.2]

/-! ### Structural decomposition of the run loop. -/

theorem runLoop_eq (today : Date) (header : List String) :
    ∀ (rs : List Record) (idx : Nat) (st : LoopState),
      runLoop today header idx st rs =
        { issues := st.issues ++ issuesFrom today header idx st.seen_ids rs
          error_rows :=
            st.error_rows ∪ errRowsFrom today header idx st.seen_ids rs
          seen_ids := seenFrom header st.seen_ids rs
          total := st.total + rs.length } := by
  intro rs
  induction rs with
  | nil =>
      intro idx st
      simp [runLoop, issuesFrom, errRowsFrom, seenFrom]
  | cons raw rest ih =>
      intro idx st
      rw [runLoop, ih]
      simp only [stepRecord, issuesFrom, errRowsFrom, seenFrom, ridOf,
        LoopState.mk.injEq]
      refine ⟨?_, ?_, ?_, ?_⟩
      · rw [List.append_assoc]
      · by_cases h : (checkR today st.seen_ids idx (buildR header raw)).any
            (fun i => i.severity == "error") = true
        · rw [if_pos h, if_pos h, Finset.insert_eq, Finset.union_assoc,
            Finset.union_left_comm]
        · rw [if_neg h, if_neg h, Finset.empty_union]
      · trivial
      · simp only [List.length_cons]
        omega

theorem mem_seenFrom (header : List String) :
    ∀ (rs : List Record) (seen : Finset String) (x : String),
      x ∈ seenFrom header seen rs ↔
        x ∈ seen ∨ ∃ raw ∈ rs, ridOf header raw = x ∧ x ≠ "" := by
  intro rs
  induction rs with
  | nil => intro seen x; simp [seenFrom]
  | cons raw rest ih =>
      intro seen x
      rw [seenFrom, ih]
      have hupd : x ∈ idUpdate seen (ridOf header raw) ↔
          x ∈ seen ∨ (ridOf header raw = x ∧ x ≠ "") := by
        unfold idUpdate
        split_ifs with h
        · constructor
          · exact fun hx => Or.inl hx
          · rintro (hx | ⟨he, hne⟩)
            · exact hx
            · exact absurd (he ▸ h) hne
        · rw [Finset.mem_insert]
          constructor
          · rintro (rfl | hx)
            · exact Or.inr ⟨rfl, h⟩
            · exact Or.inl hx
          · rintro (hx | ⟨rfl, _⟩)
            · exact Or.inr hx
            · exact Or.inl rfl
      rw [hupd]
      simp only [List.mem_cons]
      constructor
      · rintro ((hx | he) | ⟨raw2, hm, he⟩)
        · exact Or.inl hx
        · exact Or.inr ⟨raw, Or.inl rfl, he⟩
        · exact Or.inr ⟨raw2, Or.inr hm, he⟩
      · rintro (hx | ⟨raw2, (rfl | hm), he⟩)
        · exact Or.inl (Or.inl hx)
        · exact Or.inl (Or.inr he)
        · exact Or.inr ⟨raw2, hm, he⟩

theorem take_succ_cons {α : Type} (a : α) (l : List α) (k : Nat) :
    (a :: l).take (k + 1) = a :: l.take k := rfl

theorem mem_issuesFrom (today : Date) (header : List String) :
    ∀ (rs : List Record) (idx0 : Nat) (seen : Finset String) (i : Issue),
      i ∈ issuesFrom today header idx0 seen rs ↔
        ∃ k raw, rs[k]? = some raw ∧
          i ∈ checkR today (seenFrom header seen (rs.take k)) (idx0 + k)
              (buildR header raw) := by
  intro rs
  induction rs with
  | nil => intro idx0 seen i; simp [issuesFrom]
  | cons raw rest ih =>
      intro idx0 seen i
      rw [issuesFrom, List.mem_append, ih]
      constructor
      · rintro (h | ⟨k, raw2, hk, hmem⟩)
        · exact ⟨0, raw, by simp, by simpa [seenFrom] using h⟩
        · refine ⟨k + 1, raw2, by simpa using hk, ?_⟩
          rw [take_succ_cons, seenFrom,
            show idx0 + (k + 1) = (idx0 + 1) + k by omega]
          exact hmem
      · rintro ⟨k, raw2, hk, hmem⟩
        cases k with
        | zero =>
            left
            simp only [List.getElem?_cons_zero, Option.some.injEq] at hk
            subst hk
            simpa [seenFrom] using hmem
        | succ k =>
            right
            refine ⟨k, raw2, by simpa using hk, ?_⟩
            rw [take_succ_cons, seenFrom,
              show idx0 + (k + 1) = (idx0 + 1) + k by omega] at hmem
            exact hmem

set_option linter.constructorNameAsVariable false in
theorem mem_errRowsFrom (today : Date) (header : List String) :
    ∀ (rs : List Record) (idx0 : Nat) (seen : Finset String) (j : Nat),
      j ∈ errRowsFrom today header idx0 seen rs ↔
        ∃ k raw, rs[k]? = some raw ∧ j = idx0 + k ∧
          (checkR today (seenFrom header seen (rs.take k)) (idx0 + k)
            (buildR header raw)).any (fun i => i.severity == "error") = true := by
  intro rs
  induction rs with
  | nil => intro idx0 seen j; simp [errRowsFrom]
  | cons raw rest ih =>
      intro idx0 seen j
      rw [errRowsFrom, Finset.mem_union, ih]
      constructor
      · rintro (h | ⟨k, raw2, hk, hj, hany⟩)
        · split_ifs at h with hc
          · simp only [Finset.mem_singleton] at h
            subst h
            exact ⟨0, raw, by simp, by omega, by simpa [seenFrom] using hc⟩
          · simp at h
        · refine ⟨k + 1, raw2, by simpa using hk, by omega, ?_⟩
          rw [take_succ_cons, seenFrom,
            show idx0 + (k + 1) = (idx0 + 1) + k by omega]
          exact hany
      · rintro ⟨k, raw2, hk, hj, hany⟩
        cases k with
        | zero =>
            left
            simp only [List.getElem?_cons_zero, Option.some.injEq] at hk
            subst hk
            have hc : (checkR today seen idx0 (buildR header raw)).any
                (fun i => i.severity == "error") = true := by
              simpa [seenFrom] using hany
            rw [if_pos hc]
            simp only [Finset.mem_singleton]
            omega
        | succ k =>
            right
            refine ⟨k, raw2, by simpa using hk, by omega, ?_⟩
            rw [take_succ_cons, seenFrom,
              show idx0 + (k + 1) = (idx0 + 1) + k by omega] at hany
            exact hany

/-! ### Per-chunk facts: every issue a block emits carries the current
row index, severity error or warning, and a rule id from the block's
own list. -/

theorem mem_ite_cons {c : Prop} [Decidable c] {x i : Issue} :
    i ∈ (if c then [x] else []) ↔ c ∧ i = x := by
  split_ifs with h <;> simp [h]

theorem flagIssues_facts (idx : Nat) (rid es ec : String) :
    ∀ i ∈ flagIssues idx rid es ec, IFacts idx ["OF-100", "OF-101", "OF-102"] i := by
  intro i hi
  unfold flagIssues at hi
  simp only [List.mem_append, mem_ite_cons] at hi
  rcases hi with (h | h) | h <;> rw [h.2] <;> simp [IFacts, mkIss]

theorem idIssues_facts (idx : Nat) (seen : Finset String) (rid : String)
    (sampleId : Option String) :
    ∀ i ∈ idIssues idx seen rid sampleId,
      IFacts idx ["OF-110", "OF-111", "OF-112", "OF-113"] i := by
  intro i hi
  unfold idIssues at hi
  split at hi
  · simp only [List.mem_singleton] at hi; subst hi; simp [IFacts, mkIss]
  · simp only [List.mem_append, mem_ite_cons] at hi
    rcases hi with (h | h) | h <;> rw [h.2] <;> simp [IFacts, mkIss]

theorem titleIssues_facts (idx : Nat) (rid title : String) :
    ∀ i ∈ titleIssues idx rid title,
      IFacts idx ["OF-120", "OF-121", "OF-122"] i := by
  intro i hi
  unfold titleIssues at hi
  split at hi
  · simp only [List.mem_singleton] at hi; subst hi; simp [IFacts, mkIss]
  · simp only [List.mem_append, mem_ite_cons] at hi
    rcases hi with h | h <;> rw [h.2] <;> simp [IFacts, mkIss]

theorem descIssues_facts (idx : Nat) (rid desc : String) :
    ∀ i ∈ descIssues idx rid desc,
      IFacts idx ["OF-130", "OF-131", "OF-132"] i := by
  intro i hi
  unfold descIssues at hi
  split at hi
  · simp only [List.mem_singleton] at hi; subst hi; simp [IFacts, mkIss]
  · simp only [List.mem_append, mem_ite_cons] at hi
    rcases hi with h | h <;> rw [h.2] <;> simp [IFacts, mkIss]

theorem linkIssues_facts (idx : Nat) (rid link : String) :
    ∀ i ∈ linkIssues idx rid link, IFacts idx ["OF-140", "OF-141"] i := by
  intro i hi
  unfold linkIssues at hi
  split at hi
  · simp only [List.mem_singleton] at hi; subst hi; simp [IFacts, mkIss]
  · split at hi
    · simp only [List.mem_singleton] at hi; subst hi; simp [IFacts, mkIss]
    · simp at hi

theorem pcIssues_facts (idx : Nat) (rid pc : String) :
    ∀ i ∈ pcIssues idx rid pc, IFacts idx ["OF-150", "OF-151"] i := by
  intro i hi
  unfold pcIssues at hi
  split at hi
  · simp only [List.mem_singleton] at hi; subst hi; simp [IFacts, mkIss]
  · split at hi
    · simp only [List.mem_singleton] at hi; subst hi; simp [IFacts, mkIss]
    · simp at hi

theorem brandIssues_facts (idx : Nat) (rid brand : String) :
    ∀ i ∈ brandIssues idx rid brand, IFacts idx ["OF-160", "OF-161"] i := by
  intro i hi
  unfold brandIssues at hi
  split at hi
  · simp only [List.mem_singleton] at hi; subst hi; simp [IFacts, mkIss]
  · split at hi
    · simp only [List.mem_singleton] at hi; subst hi; simp [IFacts, mkIss]
    · simp at hi

theorem materialIssues_facts (idx : Nat) (rid material : String) :
    ∀ i ∈ materialIssues idx rid material,
      IFacts idx ["OF-170", "OF-171"] i := by
  intro i hi
  unfold materialIssues at hi
  split at hi
  · simp only [List.mem_singleton] at hi; subst hi; simp [IFacts, mkIss]
  · split at hi
    · simp only [List.mem_singleton] at hi; subst hi; simp [IFacts, mkIss]
    · simp at hi

theorem weightIssues_facts (idx : Nat) (rid weight : String) :
    ∀ i ∈ weightIssues idx rid weight, IFacts idx ["OF-180", "OF-181"] i := by
  intro i hi
  unfold weightIssues at hi
  split at hi
  · simp only [List.mem_singleton] at hi; subst hi; simp [IFacts, mkIss]
  · split at hi
    · simp only [List.mem_singleton] at hi; subst hi; simp [IFacts, mkIss]
    · simp at hi

theorem imgIssues_facts (idx : Nat) (rid img : String) :
    ∀ i ∈ imgIssues idx rid img, IFacts idx ["OF-190", "OF-191"] i := by
  intro i hi
  unfold imgIssues at hi
  split at hi
  · simp only [List.mem_singleton] at hi; subst hi; simp [IFacts, mkIss]
  · split at hi
    · simp only [List.mem_singleton] at hi; subst hi; simp [IFacts, mkIss]
    · simp at hi

theorem priceIssues_facts (idx : Nat) (rid price : String) :
    ∀ i ∈ priceIssues idx rid price, IFacts idx ["OF-200", "OF-201"] i := by
  intro i hi
  unfold priceIssues at hi
  split at hi
  · simp only [List.mem_singleton] at hi; subst hi; simp [IFacts, mkIss]
  · split at hi
    · simp only [List.mem_singleton] at hi; subst hi; simp [IFacts, mkIss]
    · simp at hi

theorem availIssues_facts (idx : Nat) (rid avail : String) :
    ∀ i ∈ availIssues idx rid avail, IFacts idx ["OF-210", "OF-211"] i := by
  intro i hi
  unfold availIssues at hi
  split at hi
  · simp only [List.mem_singleton] at hi; subst hi; simp [IFacts, mkIss]
  · split at hi
    · simp only [List.mem_singleton] at hi; subst hi; simp [IFacts, mkIss]
    · simp at hi

theorem invqIssues_facts (idx : Nat) (rid invq : String) :
    ∀ i ∈ invqIssues idx rid invq, IFacts idx ["OF-212", "OF-213"] i := by
  intro i hi
  unfold invqIssues at hi
  split at hi
  · simp only [List.mem_singleton] at hi; subst hi; simp [IFacts, mkIss]
  · split at hi
    · simp only [List.mem_singleton] at hi; subst hi; simp [IFacts, mkIss]
    · split at hi
      · simp only [List.mem_singleton] at hi; subst hi; simp [IFacts, mkIss]
      · simp at hi

theorem preorderIssues_facts (today : Date) (idx : Nat) (rid avail ad : String) :
    ∀ i ∈ preorderIssues today idx rid avail ad, IFacts idx ["OF-214"] i := by
  intro i hi
  unfold preorderIssues at hi
  split at hi
  · split at hi
    · simp only [List.mem_singleton] at hi; subst hi; simp [IFacts, mkIss]
    · simp at hi
  · simp at hi

theorem variantIssues_facts (idx : Nat) (rid color size ssys gender igid : String)
    (igidSample : Option String) :
    ∀ i ∈ variantIssues idx rid color size ssys gender igid igidSample,
      IFacts idx ["OF-230"] i := by
  intro i hi
  unfold variantIssues at hi
  rw [mem_ite_cons] at hi
  rw [hi.2]
  simp [IFacts, mkIss]

theorem genderIssues_facts (idx : Nat) (rid gender : String) :
    ∀ i ∈ genderIssues idx rid gender, IFacts idx ["OF-231"] i := by
  intro i hi
  unfold genderIssues at hi
  rw [mem_ite_cons] at hi
  rw [hi.2]
  simp [IFacts, mkIss]

theorem sizeSystemIssues_facts (idx : Nat) (rid ssys : String) :
    ∀ i ∈ sizeSystemIssues idx rid ssys, IFacts idx ["OF-232"] i := by
  intro i hi
  unfold sizeSystemIssues at hi
  rw [mem_ite_cons] at hi
  rw [hi.2]
  simp [IFacts, mkIss]

theorem conditionIssues_facts (idx : Nat) (rid cond : String) :
    ∀ i ∈ conditionIssues idx rid cond, IFacts idx ["OF-233"] i := by
  intro i hi
  unfold conditionIssues at hi
  rw [mem_ite_cons] at hi
  rw [hi.2]
  simp [IFacts, mkIss]

theorem ageGroupIssues_facts (idx : Nat) (rid ag : String) :
    ∀ i ∈ ageGroupIssues idx rid ag, IFacts idx ["OF-234"] i := by
  intro i hi
  unfold ageGroupIssues at hi
  rw [mem_ite_cons] at hi
  rw [hi.2]
  simp [IFacts, mkIss]

theorem dimsIssues_facts (idx : Nat) (rid lenv widv heiv : String) :
    ∀ i ∈ dimsIssues idx rid lenv widv heiv,
      IFacts idx ["OF-240", "OF-241"] i := by
  intro i hi
  unfold dimsIssues at hi
  simp only [List.mem_append, mem_ite_cons] at hi
  rcases hi with ((h | h) | h) | h <;> rw [h.2] <;> simp [IFacts, mkIss]

theorem mediaOptIssues_facts (idx : Nat) (rid video m3d : String) :
    ∀ i ∈ mediaOptIssues idx rid video m3d,
      IFacts idx ["OF-250", "OF-251"] i := by
  intro i hi
  unfold mediaOptIssues at hi
  simp only [List.mem_append, mem_ite_cons] at hi
  rcases hi with h | h <;> rw [h.2] <;> simp [IFacts, mkIss]

theorem saleIssues_facts (idx : Nat) (rid price sp spd : String) :
    ∀ i ∈ saleIssues idx rid price sp spd,
      IFacts idx ["OF-260", "OF-261", "OF-262", "OF-263"] i := by
  intro i hi
  unfold saleIssues at hi
  split at hi
  · simp only [List.mem_append] at hi
    rcases hi with hi | hi
    · split at hi
      · simp only [List.mem_singleton] at hi; subst hi; simp [IFacts, mkIss]
      · split at hi
        · split at hi
          · simp only [List.mem_singleton] at hi; subst hi; simp [IFacts, mkIss]
          · simp at hi
        · simp at hi
    · split at hi
      · simp only [List.mem_singleton] at hi; subst hi; simp [IFacts, mkIss]
      · split at hi
        · simp only [List.mem_singleton] at hi; subst hi; simp [IFacts, mkIss]
        · simp at hi
  · simp at hi

theorem unitPricingIssues_facts (idx : Nat) (rid upm bm : String) :
    ∀ i ∈ unitPricingIssues idx rid upm bm, IFacts idx ["OF-270"] i := by
  intro i hi
  unfold unitPricingIssues at hi
  rw [mem_ite_cons] at hi
  rw [hi.2]
  simp [IFacts, mkIss]

theorem expirationIssues_facts (today : Date) (idx : Nat) (rid exp : String) :
    ∀ i ∈ expirationIssues today idx rid exp, IFacts idx ["OF-280"] i := by
  intro i hi
  unfold expirationIssues at hi
  rw [mem_ite_cons] at hi
  rw [hi.2]
  simp [IFacts, mkIss]

theorem pickupIssues_facts (idx : Nat) (rid pm psla : String) :
    ∀ i ∈ pickupIssues idx rid pm psla, IFacts idx ["OF-281", "OF-282"] i := by
  intro i hi
  unfold pickupIssues at hi
  simp only [List.mem_append, mem_ite_cons] at hi
  rcases hi with h | h <;> rw [h.2] <;> simp [IFacts, mkIss]

theorem sellerIssues_facts (idx : Nat) (rid sname : String)
    (snameSample : Option String) (surl : String) (surlSample : Option String) :
    ∀ i ∈ sellerIssues idx rid sname snameSample surl surlSample,
      IFacts idx ["OF-290", "OF-291", "OF-292", "OF-293"] i := by
  intro i hi
  unfold sellerIssues at hi
  simp only [List.mem_append] at hi
  rcases hi with hi | hi
  · split at hi
    · simp only [List.mem_singleton] at hi; subst hi; simp [IFacts, mkIss]
    · split at hi
      · simp only [List.mem_singleton] at hi; subst hi; simp [IFacts, mkIss]
      · simp at hi
  · split at hi
    · simp only [List.mem_singleton] at hi; subst hi; simp [IFacts, mkIss]
    · split at hi
      · simp only [List.mem_singleton] at hi; subst hi; simp [IFacts, mkIss]
      · simp at hi

theorem checkoutDepIssues_facts (idx : Nat) (rid ec spp : String)
    (sppSample : Option String) (tos : String) (tosSample : Option String) :
    ∀ i ∈ checkoutDepIssues idx rid ec spp sppSample tos tosSample,
      IFacts idx ["OF-294", "OF-295"] i := by
  intro i hi
  unfold checkoutDepIssues at hi
  split at hi
  · simp only [List.mem_append, mem_ite_cons] at hi
    rcases hi with h | h <;> rw [h.2] <;> simp [IFacts, mkIss]
  · simp at hi

theorem returnsIssues_facts (idx : Nat) (rid rp : String)
    (rpSample : Option String) (rw : String) (rwSample : Option String) :
    ∀ i ∈ returnsIssues idx rid rp rpSample rw rwSample,
      IFacts idx ["OF-296", "OF-297", "OF-298"] i := by
  intro i hi
  unfold returnsIssues at hi
  simp only [List.mem_append] at hi
  rcases hi with hi | hi
  · rw [mem_ite_cons] at hi
    rw [hi.2]
    simp [IFacts, mkIss]
  · split at hi
    · simp only [List.mem_singleton] at hi; subst hi; simp [IFacts, mkIss]
    · split at hi
      · simp only [List.mem_singleton] at hi; subst hi; simp [IFacts, mkIss]
      · split at hi
        · simp only [List.mem_singleton] at hi; subst hi; simp [IFacts, mkIss]
        · simp at hi

theorem relIssues_facts (idx : Nat) (rid rel : String) :
    ∀ i ∈ relIssues idx rid rel, IFacts idx ["OF-299"] i := by
  intro i hi
  unfold relIssues at hi
  rw [mem_ite_cons] at hi
  rw [hi.2]
  simp [IFacts, mkIss]

theorem mem_foldr_filter (g : String → Issue) (P : String → Prop)
    [DecidablePred P] :
    ∀ (L : List String) (i : Issue),
      i ∈ L.foldr (fun f acc => (if P f then [g f] else []) ++ acc) [] ↔
        ∃ f ∈ L, P f ∧ i = g f := by
  intro L
  induction L with
  | nil => intro i; simp
  | cons a t ih =>
      intro i
      simp only [List.foldr_cons, List.mem_append, mem_ite_cons, ih]
      constructor
      · rintro (⟨hp, rfl⟩ | ⟨f, hf, hp, rfl⟩)
        · exact ⟨a, by simp, hp, rfl⟩
        · exact ⟨f, by simp [hf], hp, rfl⟩
      · rintro ⟨f, hf, hp, rfl⟩
        rcases List.mem_cons.mp hf with rfl | hf2
        · exact Or.inl ⟨hp, rfl⟩
        · exact Or.inr ⟨f, hf2, hp, rfl⟩

theorem mem_recIssues (idx : Nat) (rid : String) (r : BRec) (i : Issue) :
    i ∈ recIssues idx rid r ↔
      ∃ f ∈ RECOMMENDED_FIELDS, (rhas r f ∧ rget r f = "") ∧
        i = mkIss idx rid f "OF-REC" "warning"
          ("\"" ++ f ++ "\" is recommended but empty.") (r.lookup f) :=
  mem_foldr_filter _ _ _ i

theorem recIssues_facts (idx : Nat) (rid : String) (r : BRec) :
    ∀ i ∈ recIssues idx rid r, IFacts idx ["OF-REC"] i := by
  intro i hi
  rw [mem_recIssues] at hi
  obtain ⟨f, _, _, rfl⟩ := hi
  simp [IFacts, mkIss]

/-! ### Roll-up over the whole record battery. -/

theorem rules_disjoint {r : String} {l1 l2 : List String} (h1 : r ∈ l1)
    (h2 : r ∈ l2) (hd : ∀ x ∈ l1, x ∉ l2) : False := hd r h1 h2

theorem checkR_facts (today : Date) (seen : Finset String) (idx : Nat)
    (r : BRec) :
    ∀ i ∈ checkR today seen idx r,
      i.row_index = some idx ∧
        (i.severity = "error" ∨ i.severity = "warning") := by
  intro i hi
  simp only [checkR, List.mem_append] at hi
  rcases hi with (((((((((((((((((((((((((((((h) | h) | h) | h) | h) | h) | h) | h) | h) | h) | h) | h) | h) | h) | h) | h) | h) | h) | h) | h) | h) | h) | h) | h) | h) | h) | h) | h) | h) | h
  · obtain ⟨h1, h2, h3⟩ := flagIssues_facts _ _ _ _ i h
    exact ⟨h1, h2⟩
  · obtain ⟨h1, h2, h3⟩ := idIssues_facts _ _ _ _ i h
    exact ⟨h1, h2⟩
  · obtain ⟨h1, h2, h3⟩ := titleIssues_facts _ _ _ i h
    exact ⟨h1, h2⟩
  · obtain ⟨h1, h2, h3⟩ := descIssues_facts _ _ _ i h
    exact ⟨h1, h2⟩
  · obtain ⟨h1, h2, h3⟩ := linkIssues_facts _ _ _ i h
    exact ⟨h1, h2⟩
  · obtain ⟨h1, h2, h3⟩ := pcIssues_facts _ _ _ i h
    exact ⟨h1, h2⟩
  · obtain ⟨h1, h2, h3⟩ := brandIssues_facts _ _ _ i h
    exact ⟨h1, h2⟩
  · obtain ⟨h1, h2, h3⟩ := materialIssues_facts _ _ _ i h
    exact ⟨h1, h2⟩
  · obtain ⟨h1, h2, h3⟩ := weightIssues_facts _ _ _ i h
    exact ⟨h1, h2⟩
  · obtain ⟨h1, h2, h3⟩ := imgIssues_facts _ _ _ i h
    exact ⟨h1, h2⟩
  · obtain ⟨h1, h2, h3⟩ := priceIssues_facts _ _ _ i h
    exact ⟨h1, h2⟩
  · obtain ⟨h1, h2, h3⟩ := availIssues_facts _ _ _ i h
    exact ⟨h1, h2⟩
  · obtain ⟨h1, h2, h3⟩ := invqIssues_facts _ _ _ i h
    exact ⟨h1, h2⟩
  · obtain ⟨h1, h2, h3⟩ := preorderIssues_facts _ _ _ _ _ i h
    exact ⟨h1, h2⟩
  · obtain ⟨h1, h2, h3⟩ := variantIssues_facts _ _ _ _ _ _ _ _ i h
    exact ⟨h1, h2⟩
  · obtain ⟨h1, h2, h3⟩ := genderIssues_facts _ _ _ i h
    exact ⟨h1, h2⟩
  · obtain ⟨h1, h2, h3⟩ := sizeSystemIssues_facts _ _ _ i h
    exact ⟨h1, h2⟩
  · obtain ⟨h1, h2, h3⟩ := conditionIssues_facts _ _ _ i h
    exact ⟨h1, h2⟩
  · obtain ⟨h1, h2, h3⟩ := ageGroupIssues_facts _ _ _ i h
    exact ⟨h1, h2⟩
  · obtain ⟨h1, h2, h3⟩ := dimsIssues_facts _ _ _ _ _ i h
    exact ⟨h1, h2⟩
  · obtain ⟨h1, h2, h3⟩ := mediaOptIssues_facts _ _ _ _ i h
    exact ⟨h1, h2⟩
  · obtain ⟨h1, h2, h3⟩ := saleIssues_facts _ _ _ _ _ i h
    exact ⟨h1, h2⟩
  · obtain ⟨h1, h2, h3⟩ := unitPricingIssues_facts _ _ _ _ i h
    exact ⟨h1, h2⟩
  · obtain ⟨h1, h2, h3⟩ := expirationIssues_facts _ _ _ _ i h
    exact ⟨h1, h2⟩
  · obtain ⟨h1, h2, h3⟩ := pickupIssues_facts _ _ _ _ i h
    exact ⟨h1, h2⟩
  · obtain ⟨h1, h2, h3⟩ := sellerIssues_facts _ _ _ _ _ _ i h
    exact ⟨h1, h2⟩
  · obtain ⟨h1, h2, h3⟩ := checkoutDepIssues_facts _ _ _ _ _ _ _ i h
    exact ⟨h1, h2⟩
  · obtain ⟨h1, h2, h3⟩ := returnsIssues_facts _ _ _ _ _ _ i h
    exact ⟨h1, h2⟩
  · obtain ⟨h1, h2, h3⟩ := relIssues_facts _ _ _ i h
    exact ⟨h1, h2⟩
  · obtain ⟨h1, h2, h3⟩ := recIssues_facts _ _ _ i h
    exact ⟨h1, h2⟩

theorem checkR_rule_flag (today : Date) (seen : Finset String) (idx : Nat)
    (r : BRec) (i : Issue) (hi : i ∈ checkR today seen idx r)
    (hr : i.rule_id ∈ (["OF-100", "OF-101", "OF-102"] : List String)) :
    i ∈ flagIssues idx (rget r "id") (lowerStr (rget r "enable_search"))
      (lowerStr (rget r "enable_checkout")) := by
  simp only [checkR, List.mem_append] at hi
  rcases hi with (((((((((((((((((((((((((((((h) | h) | h) | h) | h) | h) | h) | h) | h) | h) | h) | h) | h) | h) | h) | h) | h) | h) | h) | h) | h) | h) | h) | h) | h) | h) | h) | h) | h) | h
  · exact h
  · exact ((rules_disjoint (idIssues_facts _ _ _ _ i h).2.2 hr (by decide)).elim)
  · exact ((rules_disjoint (titleIssues_facts _ _ _ i h).2.2 hr (by decide)).elim)
  · exact ((rules_disjoint (descIssues_facts _ _ _ i h).2.2 hr (by decide)).elim)
  · exact ((rules_disjoint (linkIssues_facts _ _ _ i h).2.2 hr (by decide)).elim)
  · exact ((rules_disjoint (pcIssues_facts _ _ _ i h).2.2 hr (by decide)).elim)
  · exact ((rules_disjoint (brandIssues_facts _ _ _ i h).2.2 hr (by decide)).elim)
  · exact ((rules_disjoint (materialIssues_facts _ _ _ i h).2.2 hr (by decide)).elim)
  · exact ((rules_disjoint (weightIssues_facts _ _ _ i h).2.2 hr (by decide)).elim)
  · exact ((rules_disjoint (imgIssues_facts _ _ _ i h).2.2 hr (by decide)).elim)
  · exact ((rules_disjoint (priceIssues_facts _ _ _ i h).2.2 hr (by decide)).elim)
  · exact ((rules_disjoint (availIssues_facts _ _ _ i h).2.2 hr (by decide)).elim)
  · exact ((rules_disjoint (invqIssues_facts _ _ _ i h).2.2 hr (by decide)).elim)
  · exact ((rules_disjoint (preorderIssues_facts _ _ _ _ _ i h).2.2 hr (by decide)).elim)
  · exact ((rules_disjoint (variantIssues_facts _ _ _ _ _ _ _ _ i h).2.2 hr (by decide)).elim)
  · exact ((rules_disjoint (genderIssues_facts _ _ _ i h).2.2 hr (by decide)).elim)
  · exact ((rules_disjoint (sizeSystemIssues_facts _ _ _ i h).2.2 hr (by decide)).elim)
  · exact ((rules_disjoint (conditionIssues_facts _ _ _ i h).2.2 hr (by decide)).elim)
  · exact ((rules_disjoint (ageGroupIssues_facts _ _ _ i h).2.2 hr (by decide)).elim)
  · exact ((rules_disjoint (dimsIssues_facts _ _ _ _ _ i h).2.2 hr (by decide)).elim)
  · exact ((rules_disjoint (mediaOptIssues_facts _ _ _ _ i h).2.2 hr (by decide)).elim)
  · exact ((rules_disjoint (saleIssues_facts _ _ _ _ _ i h).2.2 hr (by decide)).elim)
  · exact ((rules_disjoint (unitPricingIssues_facts _ _ _ _ i h).2.2 hr (by decide)).elim)
  · exact ((rules_disjoint (expirationIssues_facts _ _ _ _ i h).2.2 hr (by decide)).elim)
  · exact ((rules_disjoint (pickupIssues_facts _ _ _ _ i h).2.2 hr (by decide)).elim)
  · exact ((rules_disjoint (sellerIssues_facts _ _ _ _ _ _ i h).2.2 hr (by decide)).elim)
  · exact ((rules_disjoint (checkoutDepIssues_facts _ _ _ _ _ _ _ i h).2.2 hr (by decide)).elim)
  · exact ((rules_disjoint (returnsIssues_facts _ _ _ _ _ _ i h).2.2 hr (by decide)).elim)
  · exact ((rules_disjoint (relIssues_facts _ _ _ i h).2.2 hr (by decide)).elim)
  · exact ((rules_disjoint (recIssues_facts _ _ _ i h).2.2 hr (by decide)).elim)

theorem checkR_rule_dup (today : Date) (seen : Finset String) (idx : Nat)
    (r : BRec) (i : Issue) (hi : i ∈ checkR today seen idx r)
    (hr : i.rule_id ∈ (["OF-110", "OF-111", "OF-112", "OF-113"] : List String)) :
    i ∈ idIssues idx seen (rget r "id") (r.lookup "id") := by
  simp only [checkR, List.mem_append] at hi
  rcases hi with (((((((((((((((((((((((((((((h) | h) | h) | h) | h) | h) | h) | h) | h) | h) | h) | h) | h) | h) | h) | h) | h) | h) | h) | h) | h) | h) | h) | h) | h) | h) | h) | h) | h) | h
  · exact ((rules_disjoint (flagIssues_facts _ _ _ _ i h).2.2 hr (by decide)).elim)
  · exact h
  · exact ((rules_disjoint (titleIssues_facts _ _ _ i h).2.2 hr (by decide)).elim)
  · exact ((rules_disjoint (descIssues_facts _ _ _ i h).2.2 hr (by decide)).elim)
  · exact ((rules_disjoint (linkIssues_facts _ _ _ i h).2.2 hr (by decide)).elim)
  · exact ((rules_disjoint (pcIssues_facts _ _ _ i h).2.2 hr (by decide)).elim)
  · exact ((rules_disjoint (brandIssues_facts _ _ _ i h).2.2 hr (by decide)).elim)
  · exact ((rules_disjoint (materialIssues_facts _ _ _ i h).2.2 hr (by decide)).elim)
  · exact ((rules_disjoint (weightIssues_facts _ _ _ i h).2.2 hr (by decide)).elim)
  · exact ((rules_disjoint (imgIssues_facts _ _ _ i h).2.2 hr (by decide)).elim)
  · exact ((rules_disjoint (priceIssues_facts _ _ _ i h).2.2 hr (by decide)).elim)
  · exact ((rules_disjoint (availIssues_facts _ _ _ i h).2.2 hr (by decide)).elim)
  · exact ((rules_disjoint (invqIssues_facts _ _ _ i h).2.2 hr (by decide)).elim)
  · exact ((rules_disjoint (preorderIssues_facts _ _ _ _ _ i h).2.2 hr (by decide)).elim)
  · exact ((rules_disjoint (variantIssues_facts _ _ _ _ _ _ _ _ i h).2.2 hr (by decide)).elim)
  · exact ((rules_disjoint (genderIssues_facts _ _ _ i h).2.2 hr (by decide)).elim)
  · exact ((rules_disjoint (sizeSystemIssues_facts _ _ _ i h).2.2 hr (by decide)).elim)
  · exact ((rules_disjoint (conditionIssues_facts _ _ _ i h).2.2 hr (by decide)).elim)
  · exact ((rules_disjoint (ageGroupIssues_facts _ _ _ i h).2.2 hr (by decide)).elim)
  · exact ((rules_disjoint (dimsIssues_facts _ _ _ _ _ i h).2.2 hr (by decide)).elim)
  · exact ((rules_disjoint (mediaOptIssues_facts _ _ _ _ i h).2.2 hr (by decide)).elim)
  · exact ((rules_disjoint (saleIssues_facts _ _ _ _ _ i h).2.2 hr (by decide)).elim)
  · exact ((rules_disjoint (unitPricingIssues_facts _ _ _ _ i h).2.2 hr (by decide)).elim)
  · exact ((rules_disjoint (expirationIssues_facts _ _ _ _ i h).2.2 hr (by decide)).elim)
  · exact ((rules_disjoint (pickupIssues_facts _ _ _ _ i h).2.2 hr (by decide)).elim)
  · exact ((rules_disjoint (sellerIssues_facts _ _ _ _ _ _ i h).2.2 hr (by decide)).elim)
  · exact ((rules_disjoint (checkoutDepIssues_facts _ _ _ _ _ _ _ i h).2.2 hr (by decide)).elim)
  · exact ((rules_disjoint (returnsIssues_facts _ _ _ _ _ _ i h).2.2 hr (by decide)).elim)
  · exact ((rules_disjoint (relIssues_facts _ _ _ i h).2.2 hr (by decide)).elim)
  · exact ((rules_disjoint (recIssues_facts _ _ _ i h).2.2 hr (by decide)).elim)

theorem checkR_rule_rec (today : Date) (seen : Finset String) (idx : Nat)
    (r : BRec) (i : Issue) (hi : i ∈ checkR today seen idx r)
    (hr : i.rule_id ∈ (["OF-REC"] : List String)) :
    i ∈ recIssues idx (rget r "id") r := by
  simp only [checkR, List.mem_append] at hi
  rcases hi with (((((((((((((((((((((((((((((h) | h) | h) | h) | h) | h) | h) | h) | h) | h) | h) | h) | h) | h) | h) | h) | h) | h) | h) | h) | h) | h) | h) | h) | h) | h) | h) | h) | h) | h
  · exact ((rules_disjoint (flagIssues_facts _ _ _ _ i h).2.2 hr (by decide)).elim)
  · exact ((rules_disjoint (idIssues_facts _ _ _ _ i h).2.2 hr (by decide)).elim)
  · exact ((rules_disjoint (titleIssues_facts _ _ _ i h).2.2 hr (by decide)).elim)
  · exact ((rules_disjoint (descIssues_facts _ _ _ i h).2.2 hr (by decide)).elim)
  · exact ((rules_disjoint (linkIssues_facts _ _ _ i h).2.2 hr (by decide)).elim)
  · exact ((rules_disjoint (pcIssues_facts _ _ _ i h).2.2 hr (by decide)).elim)
  · exact ((rules_disjoint (brandIssues_facts _ _ _ i h).2.2 hr (by decide)).elim)
  · exact ((rules_disjoint (materialIssues_facts _ _ _ i h).2.2 hr (by decide)).elim)
  · exact ((rules_disjoint (weightIssues_facts _ _ _ i h).2.2 hr (by decide)).elim)
  · exact ((rules_disjoint (imgIssues_facts _ _ _ i h).2.2 hr (by decide)).elim)
  · exact ((rules_disjoint (priceIssues_facts _ _ _ i h).2.2 hr (by decide)).elim)
  · exact ((rules_disjoint (availIssues_facts _ _ _ i h).2.2 hr (by decide)).elim)
  · exact ((rules_disjoint (invqIssues_facts _ _ _ i h).2.2 hr (by decide)).elim)
  · exact ((rules_disjoint (preorderIssues_facts _ _ _ _ _ i h).2.2 hr (by decide)).elim)
  · exact ((rules_disjoint (variantIssues_facts _ _ _ _ _ _ _ _ i h).2.2 hr (by decide)).elim)
  · exact ((rules_disjoint (genderIssues_facts _ _ _ i h).2.2 hr (by decide)).elim)
  · exact ((rules_disjoint (sizeSystemIssues_facts _ _ _ i h).2.2 hr (by decide)).elim)
  · exact ((rules_disjoint (conditionIssues_facts _ _ _ i h).2.2 hr (by decide)).elim)
  · exact ((rules_disjoint (ageGroupIssues_facts _ _ _ i h).2.2 hr (by decide)).elim)
  · exact ((rules_disjoint (dimsIssues_facts _ _ _ _ _ i h).2.2 hr (by decide)).elim)
  · exact ((rules_disjoint (mediaOptIssues_facts _ _ _ _ i h).2.2 hr (by decide)).elim)
  · exact ((rules_disjoint (saleIssues_facts _ _ _ _ _ i h).2.2 hr (by decide)).elim)
  · exact ((rules_disjoint (unitPricingIssues_facts _ _ _ _ i h).2.2 hr (by decide)).elim)
  · exact ((rules_disjoint (expirationIssues_facts _ _ _ _ i h).2.2 hr (by decide)).elim)
  · exact ((rules_disjoint (pickupIssues_facts _ _ _ _ i h).2.2 hr (by decide)).elim)
  · exact ((rules_disjoint (sellerIssues_facts _ _ _ _ _ _ i h).2.2 hr (by decide)).elim)
  · exact ((rules_disjoint (checkoutDepIssues_facts _ _ _ _ _ _ _ i h).2.2 hr (by decide)).elim)
  · exact ((rules_disjoint (returnsIssues_facts _ _ _ _ _ _ i h).2.2 hr (by decide)).elim)
  · exact ((rules_disjoint (relIssues_facts _ _ _ i h).2.2 hr (by decide)).elim)
  · exact h

/-! ### Precise characterizations of the flag and id blocks. -/

theorem mem_flagIssues_cases (idx : Nat) (rid es ec : String) (i : Issue)
    (hi : i ∈ flagIssues idx rid es ec) :
    (¬(es = "true" ∨ es = "false") ∧
        i = mkIss idx rid "enable_search" "OF-100" "error"
          "enable_search must be \"true\" or \"false\" (lower-case)." (some es)) ∨
      (¬(ec = "true" ∨ ec = "false") ∧
        i = mkIss idx rid "enable_checkout" "OF-101" "error"
          "enable_checkout must be \"true\" or \"false\" (lower-case)." (some ec)) ∨
      ((ec = "true" ∧ es ≠ "true") ∧
        i = mkIss idx rid "enable_checkout" "OF-102" "error"
          "enable_checkout can only be true when enable_search is true."
          (some ec)) := by
  unfold flagIssues at hi
  simp only [List.mem_append, mem_ite_cons] at hi
  tauto

theorem of100_mem_flagIssues (idx : Nat) (rid es ec : String)
    (h : ¬(es = "true" ∨ es = "false")) :
    mkIss idx rid "enable_search" "OF-100" "error"
      "enable_search must be \"true\" or \"false\" (lower-case)." (some es) ∈
        flagIssues idx rid es ec := by
  unfold flagIssues
  exact List.mem_append_left _ (List.mem_append_left _ (by rw [if_pos h]; simp))

theorem of101_mem_flagIssues (idx : Nat) (rid es ec : String)
    (h : ¬(ec = "true" ∨ ec = "false")) :
    mkIss idx rid "enable_checkout" "OF-101" "error"
      "enable_checkout must be \"true\" or \"false\" (lower-case)." (some ec) ∈
        flagIssues idx rid es ec := by
  unfold flagIssues
  exact List.mem_append_left _ (List.mem_append_right _ (by rw [if_pos h]; simp))

theorem of102_mem_flagIssues (idx : Nat) (rid es ec : String)
    (h : ec = "true" ∧ es ≠ "true") :
    mkIss idx rid "enable_checkout" "OF-102" "error"
      "enable_checkout can only be true when enable_search is true."
      (some ec) ∈ flagIssues idx rid es ec := by
  unfold flagIssues
  exact List.mem_append_right _ (by rw [if_pos h]; simp)

theorem mem_idIssues_of113 (idx : Nat) (seen : Finset String) (rid : String)
    (sampleId : Option String) (i : Issue)
    (hi : i ∈ idIssues idx seen rid sampleId) (hr : i.rule_id = "OF-113") :
    (rid ≠ "" ∧ rid ∈ seen) ∧
      i = mkIss idx rid "id" "OF-113" "error" "Duplicate id found." (some rid) := by
  unfold idIssues at hi
  by_cases hrid : rid = ""
  · rw [if_pos hrid] at hi
    simp only [List.mem_singleton] at hi
    rw [hi] at hr
    simp [mkIss] at hr
  · rw [if_neg hrid] at hi
    simp only [List.mem_append, mem_ite_cons] at hi
    rcases hi with (h1 | h1) | h1
    · rw [h1.2] at hr; simp [mkIss] at hr
    · rw [h1.2] at hr; simp [mkIss] at hr
    · exact ⟨⟨hrid, h1.1⟩, h1.2⟩

theorem of113_mem_idIssues (idx : Nat) (seen : Finset String) (rid : String)
    (sampleId : Option String) (h1 : rid ≠ "") (h2 : rid ∈ seen) :
    mkIss idx rid "id" "OF-113" "error" "Duplicate id found." (some rid) ∈
      idIssues idx seen rid sampleId := by
  unfold idIssues
  rw [if_neg h1]
  exact List.mem_append_right _ (by rw [if_pos h2]; simp)

/-! ### The two branches of validate_records. -/

theorem filter_missing_nil (rs : List Record) (hok : headerOK rs) :
    REQUIRED_FIELDS.filter (fun f => ¬ (headerOf rs).contains f) = [] := by
  rw [List.filter_eq_nil_iff]
  intro a ha
  simp [hok a ha]

theorem validate_records_ok (today : Date) (rs : List Record)
    (hok : headerOK rs) :
    validate_records today rs =
      { summary :=
          { items_total := rs.length
            items_with_errors :=
              countSev (issuesFrom today (headerOf rs) 0 ∅ rs) "error"
            items_with_warnings :=
              countSev (issuesFrom today (headerOf rs) 0 ∅ rs) "warning"
            pass_rate :=
              if rs.length = 0 then 0
              else pyRound4Ratio rs.length
                (errRowsFrom today (headerOf rs) 0 ∅ rs).card }
        issues := issuesFrom today (headerOf rs) 0 ∅ rs } := by
  simp only [validate_records]
  rw [filter_missing_nil rs hok]
  simp only [List.map_nil, List.any_nil, Bool.false_eq_true, if_false,
    runLoop_eq, List.nil_append, Finset.empty_union, Nat.zero_add]

theorem validate_records_missing (today : Date) (rs : List Record)
    (hmiss : ¬ headerOK rs) :
    validate_records today rs =
      { summary :=
          { items_total := 0
            items_with_errors :=
              countSev ((REQUIRED_FIELDS.filter
                (fun f => ¬ (headerOf rs).contains f)).map reqMissingIssue)
                "error"
            items_with_warnings :=
              countSev ((REQUIRED_FIELDS.filter
                (fun f => ¬ (headerOf rs).contains f)).map reqMissingIssue)
                "warning"
            pass_rate := 0 }
        issues := (REQUIRED_FIELDS.filter
          (fun f => ¬ (headerOf rs).contains f)).map reqMissingIssue } := by
  simp only [validate_records]
  have hne : REQUIRED_FIELDS.filter (fun f => ¬ (headerOf rs).contains f) ≠ [] := by
    intro he
    apply hmiss
    intro f hf
    have := List.filter_eq_nil_iff.mp he f hf
    simp at this
    exact this
  have hany : ((REQUIRED_FIELDS.filter
      (fun f => ¬ (headerOf rs).contains f)).map reqMissingIssue).any
      (fun i => i.rule_id == "OF-REQ-MISSING") = true := by
    rcases hl : REQUIRED_FIELDS.filter (fun f => ¬ (headerOf rs).contains f) with
      _ | ⟨a, t⟩
    · exact absurd hl hne
    · simp [reqMissingIssue]
  rw [hany]
  simp

/-! ### Arithmetic of the rounded pass rate. -/

theorem roundHED_eq (x b : Int) (hb : 0 < b) :
    roundHalfEvenDiv x b =
      if 2 * (x % b) < b then x / b
      else if b < 2 * (x % b) then x / b + 1
      else if (x / b) % 2 = 0 then x / b else x / b + 1 := by
  simp only [roundHalfEvenDiv]
  rw [Int.fdiv_eq_ediv x (le_of_lt hb)]
  have hxr : x - x / b * b = x % b := by rw [Int.emod_def, mul_comm]
  rw [hxr]

theorem roundHED_nonneg (x b : Int) (hb : 0 < b) (hx : 0 ≤ x) :
    0 ≤ roundHalfEvenDiv x b := by
  rw [roundHED_eq x b hb]
  have hn : 0 ≤ x / b := Int.ediv_nonneg hx (le_of_lt hb)
  split_ifs <;> omega

theorem roundHED_le (x b m : Int) (hb : 0 < b) (hx : x ≤ m * b) :
    roundHalfEvenDiv x b ≤ m := by
  rw [roundHED_eq x b hb]
  have heq := Int.ediv_add_emod x b
  have hr0 := Int.emod_nonneg x (ne_of_gt hb)
  have hrb := Int.emod_lt_of_pos x hb
  have hnm : x / b ≤ m := by
    have e1 : (x / b) * b = b * (x / b) := mul_comm _ _
    have h5 : (x / b) * b ≤ m * b := by omega
    exact Int.le_of_mul_le_mul_right h5 hb
  by_cases hge : b ≤ 2 * (x % b)
  · have hstrict : x / b + 1 ≤ m := by
      have e1 : (2 * (x / b) + 1) * b = 2 * (b * (x / b)) + b := by ring
      have e2 : (2 * m) * b = 2 * (m * b) := by ring
      have h5 : (2 * (x / b) + 1) * b ≤ (2 * m) * b := by
        rw [e1, e2]; omega
      have h6 : 2 * (x / b) + 1 ≤ 2 * m := Int.le_of_mul_le_mul_right h5 hb
      omega
    split_ifs <;> omega
  · split_ifs <;> omega

theorem roundHED_exact (m b : Int) (hb : 0 < b) :
    roundHalfEvenDiv (m * b) b = m := by
  rw [roundHED_eq _ _ hb]
  have h1 : m * b % b = 0 := Int.mul_emod_left m b
  have h2 : m * b / b = m := Int.mul_ediv_cancel m (ne_of_gt hb)
  rw [h1, h2]
  split_ifs <;> omega

theorem roundHED_lt_half (x b m : Int) (hb : 0 < b)
    (h : 2 * x < (2 * m + 1) * b) : roundHalfEvenDiv x b ≤ m := by
  rw [roundHED_eq x b hb]
  have heq := Int.ediv_add_emod x b
  have hr0 := Int.emod_nonneg x (ne_of_gt hb)
  have hrb := Int.emod_lt_of_pos x hb
  have hnm : x / b ≤ m := by
    have e1 : (2 * (x / b)) * b = 2 * (b * (x / b)) := by ring
    have h5 : (2 * (x / b)) * b < (2 * m + 1) * b := by
      rw [e1]; omega
    have h6 : 2 * (x / b) < 2 * m + 1 := lt_of_mul_lt_mul_right h5 (le_of_lt hb)
    omega
  by_cases hge : b ≤ 2 * (x % b)
  · have hstrict : x / b + 1 ≤ m := by
      have e1 : (2 * (x / b) + 1) * b = 2 * (b * (x / b)) + b := by ring
      have h5 : (2 * (x / b) + 1) * b < (2 * m + 1) * b := by
        rw [e1]; omega
      have h6 : 2 * (x / b) + 1 < 2 * m + 1 :=
        lt_of_mul_lt_mul_right h5 (le_of_lt hb)
      omega
    split_ifs <;> omega
  · split_ifs <;> omega

theorem pyRound4Ratio_eq_div (t e : Nat) :
    pyRound4Ratio t e =
      ((roundHalfEvenDiv (10000 * ((t : Int) - (e : Int))) (t : Int) : Int) : ℚ) /
        10000 := by
  unfold pyRound4Ratio
  rw [Rat.mkRat_eq_divInt, Rat.divInt_eq_div]
  norm_num

theorem pass_nonneg_le_one (t e : Nat) (ht : 0 < t) (he : e ≤ t) :
    0 ≤ pyRound4Ratio t e ∧ pyRound4Ratio t e ≤ 1 := by
  have hb : (0 : Int) < (t : Int) := by exact_mod_cast ht
  have hx0 : (0 : Int) ≤ 10000 * ((t : Int) - (e : Int)) := by
    have : (e : Int) ≤ (t : Int) := by exact_mod_cast he
    omega
  have hxle : 10000 * ((t : Int) - (e : Int)) ≤ 10000 * (t : Int) := by
    have : (0 : Int) ≤ (e : Int) := by positivity
    omega
  have hk0 : 0 ≤ roundHalfEvenDiv (10000 * ((t : Int) - (e : Int))) (t : Int) :=
    roundHED_nonneg _ _ hb hx0
  have hk1 : roundHalfEvenDiv (10000 * ((t : Int) - (e : Int))) (t : Int) ≤ 10000 :=
    roundHED_le _ _ _ hb hxle
  rw [pyRound4Ratio_eq_div]
  constructor
  · apply div_nonneg _ (by norm_num)
    exact_mod_cast hk0
  · rw [div_le_one (by norm_num)]
    exact_mod_cast hk1

theorem pass_one_of_no_err (t : Nat) (ht : 0 < t) : pyRound4Ratio t 0 = 1 := by
  have hb : (0 : Int) < (t : Int) := by exact_mod_cast ht
  rw [pyRound4Ratio_eq_div]
  have he : 10000 * ((t : Int) - (0 : Nat)) = 10000 * (t : Int) := by norm_num
  rw [he, roundHED_exact 10000 (t : Int) hb]
  norm_num

theorem pass_lt_one_of_err (t e : Nat) (ht : 0 < t) (hte : t ≤ 19999)
    (he1 : 1 ≤ e) (he : e ≤ t) : pyRound4Ratio t e ≠ 1 := by
  have hb : (0 : Int) < (t : Int) := by exact_mod_cast ht
  have hcast : (e : Int) ≤ (t : Int) := by exact_mod_cast he
  have hcast1 : (1 : Int) ≤ (e : Int) := by exact_mod_cast he1
  have hcastT : (t : Int) ≤ 19999 := by exact_mod_cast hte
  have hk : roundHalfEvenDiv (10000 * ((t : Int) - (e : Int))) (t : Int) ≤ 9999 := by
    apply roundHED_lt_half _ _ _ hb
    omega
  rw [pyRound4Ratio_eq_div]
  intro hcontra
  rw [div_eq_one_iff_eq (by norm_num)] at hcontra
  have : roundHalfEvenDiv (10000 * ((t : Int) - (e : Int))) (t : Int) = 10000 := by
    exact_mod_cast hcontra
  omega

/-! ### Access through the built record, and injections of the flag,
id and recommended blocks into the whole battery. -/

theorem rget_buildR (header : List String) (raw : Record) (k : String)
    (hk : k ∈ header) : rget (buildR header raw) k = pyGetStr raw k := by
  induction header with
  | nil => simp at hk
  | cons h t ih =>
      rcases List.mem_cons.mp hk with rfl | hk2
      · simp [rget, buildR, List.lookup]
      · by_cases he : k = h
        · subst he; simp [rget, buildR, List.lookup]
        · have : (k == h) = false := beq_eq_false_iff_ne.mpr he
          simp only [buildR, List.map_cons, rget, List.lookup, this]
          exact ih hk2

theorem rhas_buildR (header : List String) (raw : Record) (k : String) :
    rhas (buildR header raw) k = true ↔ k ∈ header := by
  induction header with
  | nil => simp [rhas, buildR, List.lookup]
  | cons h t ih =>
      by_cases he : k = h
      · subst he
        constructor
        · intro _; exact List.mem_cons_self _ _
        · intro _; simp [rhas, buildR, List.lookup]
      · have hb : (k == h) = false := beq_eq_false_iff_ne.mpr he
        have e : rhas (buildR (h :: t) raw) k = rhas (buildR t raw) k := by
          simp [rhas, buildR, List.lookup, hb]
        rw [e, ih]
        simp [List.mem_cons, he]

theorem flag_sub_checkR (today : Date) (seen : Finset String) (idx : Nat)
    (r : BRec) (i : Issue)
    (h : i ∈ flagIssues idx (rget r "id") (lowerStr (rget r "enable_search"))
      (lowerStr (rget r "enable_checkout"))) :
    i ∈ checkR today seen idx r := by
  simp only [checkR, List.mem_append]
  iterate 29 left
  exact h

theorem id_sub_checkR (today : Date) (seen : Finset String) (idx : Nat)
    (r : BRec) (i : Issue)
    (h : i ∈ idIssues idx seen (rget r "id") (r.lookup "id")) :
    i ∈ checkR today seen idx r := by
  simp only [checkR, List.mem_append]
  iterate 28 left
  right
  exact h

theorem rec_sub_checkR (today : Date) (seen : Finset String) (idx : Nat)
    (r : BRec) (i : Issue) (h : i ∈ recIssues idx (rget r "id") r) :
    i ∈ checkR today seen idx r := by
  simp only [checkR, List.mem_append]
  right
  exact h

theorem mem_take_iff {α : Type} (l : List α) (n : Nat) (a : α) :
    a ∈ l.take n ↔ ∃ j, j < n ∧ l[j]? = some a := by
  induction l generalizing n with
  | nil => simp
  | cons x t ih =>
      cases n with
      | zero => simp
      | succ n =>
          rw [take_succ_cons]
          simp only [List.mem_cons, ih]
          constructor
          · rintro (rfl | ⟨j, hj, hget⟩)
            · exact ⟨0, by omega, by simp⟩
            · exact ⟨j + 1, by omega, by simpa using hget⟩
          · rintro ⟨j, hj, hget⟩
            cases j with
            | zero =>
                left
                simp only [List.getElem?_cons_zero, Option.some.injEq] at hget
                exact hget.symm
            | succ j =>
                right
                exact ⟨j, by omega, by simpa using hget⟩

theorem errRowsFrom_subset (today : Date) (header : List String)
    (rs : List Record) :
    errRowsFrom today header 0 ∅ rs ⊆ Finset.range rs.length := by
  intro j hj
  rw [mem_errRowsFrom] at hj
  obtain ⟨k, raw, hk, rfl, _⟩ := hj
  rw [Finset.mem_range]
  have := (List.getElem?_eq_some_iff.mp hk).1
  omega

/-- An error-severity issue sits in the loop output exactly when its
row is in the error-row set. -/
theorem errRows_iff_errIssue (today : Date) (header : List String)
    (rs : List Record) (j : Nat) :
    j ∈ errRowsFrom today header 0 ∅ rs ↔
      ∃ i ∈ issuesFrom today header 0 ∅ rs,
        i.severity = "error" ∧ i.row_index = some j := by
  rw [mem_errRowsFrom]
  constructor
  · rintro ⟨k, raw, hk, rfl, hany⟩
    obtain ⟨i, hi, hsev⟩ := List.any_eq_true.mp hany
    refine ⟨i, (mem_issuesFrom today header rs 0 ∅ i).mpr ⟨k, raw, hk, hi⟩, ?_, ?_⟩
    · exact beq_iff_eq.mp hsev
    · exact (checkR_facts _ _ _ _ i hi).1
  · rintro ⟨i, hi, hsev, hrow⟩
    obtain ⟨k, raw, hk, hmem⟩ := (mem_issuesFrom today header rs 0 ∅ i).mp hi
    have hrowk := (checkR_facts _ _ _ _ i hmem).1
    rw [hrow] at hrowk
    have hjk : j = 0 + k := by
      simpa using hrowk
    exact ⟨k, raw, hk, hjk, List.any_eq_true.mpr ⟨i, hmem, beq_iff_eq.mpr hsev⟩⟩

/-! ### Congruence: validation reads a raw value only through its
coerced view. -/

theorem stepRecord_congr (today : Date) (header : List String) (idx : Nat)
    (st : LoopState) (raw1 raw2 : Record)
    (h : buildR header raw1 = buildR header raw2) :
    stepRecord today header idx st raw1 = stepRecord today header idx st raw2 := by
  simp only [stepRecord]
  rw [h]

theorem runLoop_congr (today : Date) (header : List String) :
    ∀ (l1 l2 : List Record) (idx : Nat) (st : LoopState),
      l1.length = l2.length →
      (∀ (j : Nat) (r1 r2 : Record), l1[j]? = some r1 → l2[j]? = some r2 →
        buildR header r1 = buildR header r2) →
      runLoop today header idx st l1 = runLoop today header idx st l2 := by
  intro l1
  induction l1 with
  | nil =>
      intro l2 idx st hlen _
      cases l2 with
      | nil => rfl
      | cons a t => simp at hlen
  | cons r1 t1 ih =>
      intro l2 idx st hlen hb
      cases l2 with
      | nil => simp at hlen
      | cons r2 t2 =>
          rw [runLoop, runLoop,
            stepRecord_congr today header idx st r1 r2
              (hb 0 r1 r2 (by simp) (by simp))]
          exact ih t2 (idx + 1) _ (by simpa using hlen)
            (fun j a b ha hb2 => hb (j + 1) a b (by simpa using ha)
              (by simpa using hb2))

theorem keysOf_setVal (rec : Record) (k : String) (v : Option String) :
    (setVal rec k v).map Prod.fst = rec.map Prod.fst := by
  induction rec with
  | nil => rfl
  | cons kv t ih =>
      simp only [setVal, List.map_cons] at ih ⊢
      split_ifs <;> simp_all

theorem headerOf_setValAt (rs : List Record) (idx : Nat) (k : String)
    (v : Option String) : headerOf (setValAt rs idx k v) = headerOf rs := by
  cases rs with
  | nil => rfl
  | cons r t =>
      cases idx with
      | zero => simp [setValAt, headerOf, keysOf_setVal]
      | succ n => rfl

theorem lookup_setVal (rec : Record) (k : String) (v : Option String)
    (k2 : String) :
    List.lookup k2 (setVal rec k v) =
      if k2 = k then (List.lookup k2 rec).map (fun _ => v)
      else List.lookup k2 rec := by
  induction rec with
  | nil => simp [setVal, List.lookup]
  | cons kv t ih =>
      simp only [setVal, List.map_cons] at ih ⊢
      by_cases h2 : k2 = kv.1
      · by_cases h1 : kv.1 == k
        · have hk1 : kv.1 = k := beq_iff_eq.mp h1
          have he : k2 = k := h2.trans hk1
          rw [if_pos h1]
          have hb : (k2 == kv.1) = true := beq_iff_eq.mpr h2
          simp [List.lookup, hb, if_pos he]
        · rw [if_neg h1]
          have hb : (k2 == kv.1) = true := beq_iff_eq.mpr h2
          have hne : ¬ k2 = k := fun he => h1 (beq_iff_eq.mpr (h2.symm.trans he))
          simp [List.lookup, hb, if_neg hne]
      · have hb : (k2 == kv.1) = false := beq_eq_false_iff_ne.mpr h2
        by_cases h1 : kv.1 == k
        · rw [if_pos h1]
          simp only [List.lookup, hb]
          exact ih
        · rw [if_neg h1]
          simp only [List.lookup, hb]
          exact ih

theorem pyGetStr_setVal (rec : Record) (k : String) (v1 v2 : Option String)
    (h : pyCoerce v1 = pyCoerce v2) (k2 : String) :
    pyGetStr (setVal rec k v1) k2 = pyGetStr (setVal rec k v2) k2 := by
  unfold pyGetStr
  rw [lookup_setVal, lookup_setVal]
  by_cases he : k2 = k
  · rw [if_pos he, if_pos he]
    cases List.lookup k2 rec with
    | none => rfl
    | some w =>
        cases v1 with
        | none => cases v2 with
          | none => rfl
          | some s2 => simpa [pyCoerce] using h
        | some s1 => cases v2 with
          | none => simpa [pyCoerce] using h
          | some s2 => simpa [pyCoerce] using h
  · rw [if_neg he, if_neg he]

theorem buildR_setVal (header : List String) (rec : Record) (k : String)
    (v1 v2 : Option String) (h : pyCoerce v1 = pyCoerce v2) :
    buildR header (setVal rec k v1) = buildR header (setVal rec k v2) := by
  unfold buildR
  apply List.map_congr_left
  intro a _
  rw [pyGetStr_setVal rec k v1 v2 h a]

theorem getElem_setValAt (rs : List Record) (idx : Nat) (k : String)
    (v : Option String) (j : Nat) :
    (setValAt rs idx k v)[j]? =
      if j = idx then (rs[j]?).map (fun r => setVal r k v) else rs[j]? := by
  induction rs generalizing idx j with
  | nil => simp [setValAt]
  | cons r t ih =>
      cases idx with
      | zero =>
          cases j with
          | zero => simp [setValAt]
          | succ j => simp [setValAt]
      | succ n =>
          cases j with
          | zero => simp [setValAt]
          | succ j =>
              simp only [setValAt, List.getElem?_cons_succ, ih]
              by_cases hj : j = n
              · simp [hj]
              · have : ¬ (j + 1 = n + 1) := by omega
                simp [hj, this]

theorem length_setValAt (rs : List Record) (idx : Nat) (k : String)
    (v : Option String) : (setValAt rs idx k v).length = rs.length := by
  induction rs generalizing idx with
  | nil => rfl
  | cons r t ih =>
      cases idx with
      | zero => rfl
      | succ n => simpa [setValAt] using ih n

theorem validate_setValAt_congr (today : Date) (rs : List Record) (idx : Nat)
    (k : String) (v1 v2 : Option String) (h : pyCoerce v1 = pyCoerce v2) :
    validate_records today (setValAt rs idx k v1) =
      validate_records today (setValAt rs idx k v2) := by
  have hh : headerOf (setValAt rs idx k v1) = headerOf (setValAt rs idx k v2) := by
    rw [headerOf_setValAt, headerOf_setValAt]
  have hlen : (setValAt rs idx k v1).length = (setValAt rs idx k v2).length := by
    rw [length_setValAt, length_setValAt]
  have hbuild : ∀ (j : Nat) (r1 r2 : Record), (setValAt rs idx k v1)[j]? = some r1 →
      (setValAt rs idx k v2)[j]? = some r2 →
      buildR (headerOf (setValAt rs idx k v2)) r1 =
        buildR (headerOf (setValAt rs idx k v2)) r2 := by
    intro j r1 r2 h1 h2
    rw [getElem_setValAt] at h1 h2
    by_cases hj : j = idx
    · rw [if_pos hj] at h1 h2
      rcases hget : rs[j]? with _ | r0
      · rw [hget] at h1; simp at h1
      · rw [hget] at h1 h2
        simp at h1 h2
        subst h1
        subst h2
        exact buildR_setVal _ r0 k v1 v2 h
    · rw [if_neg hj] at h1 h2
      rw [h1] at h2
      cases h2
      rfl
  have hloop : runLoop today (headerOf (setValAt rs idx k v2)) 0
      { issues := (REQUIRED_FIELDS.filter
          (fun f => ¬ (headerOf (setValAt rs idx k v2)).contains f)).map
          reqMissingIssue
        error_rows := ∅, seen_ids := ∅, total := 0 } (setValAt rs idx k v1) =
      runLoop today (headerOf (setValAt rs idx k v2)) 0
      { issues := (REQUIRED_FIELDS.filter
          (fun f => ¬ (headerOf (setValAt rs idx k v2)).contains f)).map
          reqMissingIssue
        error_rows := ∅, seen_ids := ∅, total := 0 } (setValAt rs idx k v2) :=
    runLoop_congr today _ _ _ 0 _ hlen hbuild
  simp only [validate_records]
  rw [hh, hloop]

/-! ### Claim theorems. -/

/-- Claim C1 (counterexample): the claim says every record in the
sequence is processed and items_total equals the number of input
records regardless of which required keys the first record contains; on
a single record carrying only an id key the source early-returns with
items_total 0, not 1. -/
theorem claim_C1_counterexample :
    (validate_records today0 [[("id", some "X")]]).summary.items_total ≠
      ([[("id", some "X")]] : List Record).length := by decide

/-- Claim C1 (amended): required-field presence is checked once against
the first record's key list (the header); when a required field is
missing from that header, validation early-returns with items_total 0
and only the header-level OF-REQ-MISSING issues; otherwise every record
is processed and items_total equals the number of input records. -/
theorem claim_C1_amended (today : Date) (rs : List Record) :
    (validate_records today rs).summary.items_total =
      (if headerOK rs then rs.length else 0) ∧
    (¬ headerOK rs →
      (validate_records today rs).issues =
        (REQUIRED_FIELDS.filter (fun f => ¬ (headerOf rs).contains f)).map
          reqMissingIssue) := by
  constructor
  · by_cases h : headerOK rs
    · rw [validate_records_ok today rs h, if_pos h]
    · rw [validate_records_missing today rs h, if_neg h]
  · intro h
    rw [validate_records_missing today rs h]

/-- Claim C1 (witness): the amended theorem applied to the concrete
one-record input whose only key is id. -/
theorem claim_C1_amended_witness :
    (validate_records today0 [[("id", some "X")]]).issues =
      (REQUIRED_FIELDS.filter
        (fun f => ¬ (headerOf [[("id", some "X")]]).contains f)).map
        reqMissingIssue :=
  (claim_C1_amended today0 [[("id", some "X")]]).2 (by decide)

/-- Claim C2 (counterexample): the claim says every recommended field
never observed as a key yields exactly one opportunity issue, even for
items_total 0.  The field gtin is recommended and never observed in
either run below, yet no opportunity issue exists in the output. -/
theorem claim_C2_counterexample :
    "gtin" ∈ RECOMMENDED_FIELDS ∧
    (validate_records today0 []).summary.items_total = 0 ∧
    ((validate_records today0 []).issues.filter
      (fun i => i.severity == "opportunity")) = [] ∧
    ((validate_records today0 [baseRec]).issues.filter
      (fun i => i.severity == "opportunity")) = [] := by decide

/-- Claim C2 (amended): the validator never emits a dataset-level
opportunity issue; every issue it produces has severity error or
warning. -/
theorem claim_C2_amended (today : Date) (rs : List Record) :
    ∀ i ∈ (validate_records today rs).issues,
      i.severity = "error" ∨ i.severity = "warning" := by
  intro i hi
  by_cases h : headerOK rs
  · rw [validate_records_ok today rs h] at hi
    obtain ⟨k, raw, hk, hmem⟩ := (mem_issuesFrom _ _ _ _ _ _).mp hi
    exact (checkR_facts _ _ _ _ i hmem).2
  · rw [validate_records_missing today rs h] at hi
    simp only [List.mem_map] at hi
    obtain ⟨f, _, rfl⟩ := hi
    left
    rfl

/-- Claim C2 (witness): the amended theorem applied to a concrete issue
of the empty-input run. -/
theorem claim_C2_amended_witness :
    (reqMissingIssue "enable_search").severity = "error" ∨
      (reqMissingIssue "enable_search").severity = "warning" :=
  claim_C2_amended today0 [] (reqMissingIssue "enable_search") (by decide)

/-- Claim C3 (code bug): WEIGHT_RE is compiled from a raw string with
doubled backslashes, so it only matches strings containing literal
backslash characters; the well-formed weight 1.5 lb, the very example
the source's own messages give, is rejected with an OF-181 error. -/
theorem claim_C3_weight_regex_bug :
    WEIGHT_RE.full "1.5 lb" = false ∧
    WEIGHT_RE.full "\\\\d\\lb\\" = true ∧
    (validate_records today0 [setVal baseRec "weight" (some "1.5 lb")]).issues =
      [mkIss 0 "SKU1" "weight" "OF-181" "error"
        "weight must be a positive number with unit (lb, lbs, kg, g, oz)."
        (some "1.5 lb")] := by decide

/-- Lifting of a flag-block rule to the final output: an issue with one
of the three flag rule ids and a given row exists exactly when the flag
block of that row's record emits it. -/
theorem flag_issue_lifted (today : Date) (rs : List Record) (idx : Nat)
    (raw : Record) (hok : headerOK rs) (hidx : rs[idx]? = some raw)
    (R : String) (hR : R ∈ (["OF-100", "OF-101", "OF-102"] : List String)) :
    (∃ i ∈ (validate_records today rs).issues,
        i.rule_id = R ∧ i.row_index = some idx) ↔
      (∃ i ∈ flagIssues idx (rget (buildR (headerOf rs) raw) "id")
          (lowerStr (rget (buildR (headerOf rs) raw) "enable_search"))
          (lowerStr (rget (buildR (headerOf rs) raw) "enable_checkout")),
        i.rule_id = R) := by
  rw [validate_records_ok today rs hok]
  constructor
  · rintro ⟨i, hi, hrule, hrow⟩
    obtain ⟨k, raw2, hk, hmem⟩ := (mem_issuesFrom _ _ _ _ _ _).mp hi
    have hrowk := (checkR_facts _ _ _ _ i hmem).1
    rw [hrow] at hrowk
    have hki : k = idx := by simpa using hrowk.symm
    subst hki
    rw [hidx] at hk
    cases hk
    have hfl := checkR_rule_flag _ _ _ _ i hmem (by rw [hrule]; exact hR)
    simp only [Nat.zero_add] at hfl
    exact ⟨i, hfl, hrule⟩
  · rintro ⟨i, hfl, hrule⟩
    have hrow := ((flagIssues_facts _ _ _ _) i hfl).1
    refine ⟨i, ?_, hrule, hrow⟩
    apply (mem_issuesFrom _ _ _ _ _ _).mpr
    refine ⟨idx, raw, hidx, ?_⟩
    apply flag_sub_checkR
    simpa using hfl

theorem flag_ex_of100 (idx : Nat) (rid es ec : String) :
    (∃ i ∈ flagIssues idx rid es ec, i.rule_id = "OF-100") ↔
      ¬(es = "true" ∨ es = "false") := by
  constructor
  · rintro ⟨i, hi, hr⟩
    rcases mem_flagIssues_cases idx rid es ec i hi with h | h | h
    · exact h.1
    · rw [h.2] at hr; simp [mkIss] at hr
    · rw [h.2] at hr; simp [mkIss] at hr
  · intro hc
    exact ⟨_, of100_mem_flagIssues idx rid es ec hc, rfl⟩

theorem flag_ex_of101 (idx : Nat) (rid es ec : String) :
    (∃ i ∈ flagIssues idx rid es ec, i.rule_id = "OF-101") ↔
      ¬(ec = "true" ∨ ec = "false") := by
  constructor
  · rintro ⟨i, hi, hr⟩
    rcases mem_flagIssues_cases idx rid es ec i hi with h | h | h
    · rw [h.2] at hr; simp [mkIss] at hr
    · exact h.1
    · rw [h.2] at hr; simp [mkIss] at hr
  · intro hc
    exact ⟨_, of101_mem_flagIssues idx rid es ec hc, rfl⟩

theorem flag_ex_of102 (idx : Nat) (rid es ec : String) :
    (∃ i ∈ flagIssues idx rid es ec, i.rule_id = "OF-102") ↔
      (ec = "true" ∧ es ≠ "true") := by
  constructor
  · rintro ⟨i, hi, hr⟩
    rcases mem_flagIssues_cases idx rid es ec i hi with h | h | h
    · rw [h.2] at hr; simp [mkIss] at hr
    · rw [h.2] at hr; simp [mkIss] at hr
    · exact h.1
  · intro hc
    exact ⟨_, of102_mem_flagIssues idx rid es ec hc, rfl⟩

/-- Claim C4 (counterexample): the claim says any value other than the
exact lower-case strings true and false, for instance TRUE, yields an
error on that flag; the source lower-cases the value before the check,
so TRUE passes and the record is issue-free. -/
theorem claim_C4_counterexample :
    (validate_records today0
      [setVal baseRec "enable_search" (some "TRUE")]).issues = [] := by decide

/-- Claim C4 (amended): the flag checks compare the lower-cased stripped
value against true and false, so case variants are accepted; absent or
malformed values yield OF-100 and OF-101 errors, and the dependency
error OF-102 fires exactly when the lower-cased enable_checkout is true
while the lower-cased enable_search is not. -/
theorem claim_C4_amended (today : Date) (rs : List Record) (idx : Nat)
    (raw : Record) (hok : headerOK rs) (hidx : rs[idx]? = some raw) :
    ((∃ i ∈ (validate_records today rs).issues,
        i.rule_id = "OF-100" ∧ i.row_index = some idx) ↔
      ¬(lowerStr (pyGetStr raw "enable_search") = "true" ∨
        lowerStr (pyGetStr raw "enable_search") = "false")) ∧
    ((∃ i ∈ (validate_records today rs).issues,
        i.rule_id = "OF-101" ∧ i.row_index = some idx) ↔
      ¬(lowerStr (pyGetStr raw "enable_checkout") = "true" ∨
        lowerStr (pyGetStr raw "enable_checkout") = "false")) ∧
    ((∃ i ∈ (validate_records today rs).issues,
        i.rule_id = "OF-102" ∧ i.row_index = some idx) ↔
      (lowerStr (pyGetStr raw "enable_checkout") = "true" ∧
        lowerStr (pyGetStr raw "enable_search") ≠ "true")) := by
  have hes : rget (buildR (headerOf rs) raw) "enable_search" =
      pyGetStr raw "enable_search" :=
    rget_buildR _ _ _ (hok _ (by decide))
  have hec : rget (buildR (headerOf rs) raw) "enable_checkout" =
      pyGetStr raw "enable_checkout" :=
    rget_buildR _ _ _ (hok _ (by decide))
  refine ⟨?_, ?_, ?_⟩
  · rw [flag_issue_lifted today rs idx raw hok hidx "OF-100" (by decide),
      flag_ex_of100, hes]
  · rw [flag_issue_lifted today rs idx raw hok hidx "OF-101" (by decide),
      flag_ex_of101, hec]
  · rw [flag_issue_lifted today rs idx raw hok hidx "OF-102" (by decide),
      flag_ex_of102, hes, hec]

/-- Claim C4 (witness): the amended theorem applied to a record whose
enable_search value is bogus, producing the OF-100 error. -/
theorem claim_C4_amended_witness :
    ∃ i ∈ (validate_records today0
        [setVal baseRec "enable_search" (some "bogus")]).issues,
      i.rule_id = "OF-100" ∧ i.row_index = some 0 :=
  ((claim_C4_amended today0 [setVal baseRec "enable_search" (some "bogus")]
    0 (setVal baseRec "enable_search" (some "bogus")) (by decide)
    (by decide)).1).mpr (by decide)

/-- Claim C5 (counterexample): with three records of which exactly one
produced an error, the source reports round((3-1)/3, 4) = 0.6667 as the
pass rate, which is not the exact ratio (3-1)/3 the claim states. -/
theorem claim_C5_counterexample :
    (validate_records today0 rs3).summary.items_total = 3 ∧
    (errRowsFrom today0 (headerOf rs3) 0 ∅ rs3).card = 1 ∧
    (validate_records today0 rs3).summary.pass_rate = mkRat 6667 10000 ∧
    (validate_records today0 rs3).summary.pass_rate ≠ ((3 : ℚ) - 1) / 3 := by
  refine ⟨by decide, by decide, by decide, ?_⟩
  rw [(by decide :
    (validate_records today0 rs3).summary.pass_rate = mkRat 6667 10000)]
  rw [Rat.mkRat_eq_divInt, Rat.divInt_eq_div]
  norm_num

/-- Claim C5 (amended): every error-severity issue with a non-null row
index contributes its row to the error-row set; the pass rate is the
ratio (items_total minus error rows) over items_total rounded half-even
to four decimal places (0 when items_total is 0); it always lies in
the unit interval; it is 1.0 whenever no error issue was produced (for
a non-empty processed run); and conversely, for runs of at most 19999
records, a pass rate of 1.0 means no record produced an error issue. -/
theorem claim_C5_amended (today : Date) (rs : List Record) :
    (∀ i ∈ (validate_records today rs).issues, i.severity = "error" →
      ∀ j, i.row_index = some j → j ∈ errRowsFrom today (headerOf rs) 0 ∅ rs) ∧
    (headerOK rs → (validate_records today rs).summary.pass_rate =
      (if rs.length = 0 then 0
       else pyRound4Ratio rs.length
         (errRowsFrom today (headerOf rs) 0 ∅ rs).card)) ∧
    (0 ≤ (validate_records today rs).summary.pass_rate ∧
      (validate_records today rs).summary.pass_rate ≤ 1) ∧
    (headerOK rs → rs ≠ [] →
      (∀ i ∈ (validate_records today rs).issues, i.severity ≠ "error") →
      (validate_records today rs).summary.pass_rate = 1) ∧
    (headerOK rs → rs.length ≤ 19999 →
      (validate_records today rs).summary.pass_rate = 1 →
      ∀ i ∈ (validate_records today rs).issues, i.severity ≠ "error") := by
  by_cases hok : headerOK rs
  · have hre := validate_records_ok today rs hok
    have hcard_le : (errRowsFrom today (headerOf rs) 0 ∅ rs).card ≤ rs.length := by
      calc (errRowsFrom today (headerOf rs) 0 ∅ rs).card
          ≤ (Finset.range rs.length).card :=
            Finset.card_le_card (errRowsFrom_subset today (headerOf rs) rs)
        _ = rs.length := Finset.card_range _
    refine ⟨?_, ?_, ?_, ?_, ?_⟩
    · intro i hi hsev j hrow
      rw [hre] at hi
      exact (errRows_iff_errIssue today (headerOf rs) rs j).mpr ⟨i, hi, hsev, hrow⟩
    · intro _
      rw [hre]
    · rw [hre]
      by_cases hlen : rs.length = 0
      · rw [if_pos hlen]
        constructor <;> norm_num
      · rw [if_neg hlen]
        exact pass_nonneg_le_one rs.length _ (Nat.pos_of_ne_zero hlen) hcard_le
    · intro _ hne hnoerr
      rw [hre] at hnoerr ⊢
      have hempty : errRowsFrom today (headerOf rs) 0 ∅ rs = ∅ := by
        by_contra hne2
        obtain ⟨j, hj⟩ := Finset.nonempty_iff_ne_empty.mpr hne2
        obtain ⟨i, hi, hsev, _⟩ := (errRows_iff_errIssue _ _ _ j).mp hj
        exact hnoerr i hi hsev
      have hlen : rs.length ≠ 0 := by
        intro h0
        exact hne (List.length_eq_zero.mp h0)
      rw [if_neg hlen, hempty]
      simpa using pass_one_of_no_err rs.length (Nat.pos_of_ne_zero hlen)
    · intro _ hle hpass i hi hsev
      rw [hre] at hpass hi
      obtain ⟨k, raw, hk, hmem⟩ := (mem_issuesFrom _ _ _ _ _ _).mp hi
      have hrow := (checkR_facts _ _ _ _ i hmem).1
      have hj : (0 + k) ∈ errRowsFrom today (headerOf rs) 0 ∅ rs :=
        (errRows_iff_errIssue _ _ _ _).mpr
          ⟨i, (mem_issuesFrom _ _ _ _ _ _).mpr ⟨k, raw, hk, hmem⟩, hsev, hrow⟩
      have hpos : 1 ≤ (errRowsFrom today (headerOf rs) 0 ∅ rs).card :=
        Finset.card_pos.mpr ⟨_, hj⟩
      have hlen0 : rs.length ≠ 0 := by
        intro h0
        have := (List.getElem?_eq_some_iff.mp hk).1
        omega
      rw [if_neg hlen0] at hpass
      exact pass_lt_one_of_err rs.length _ (Nat.pos_of_ne_zero hlen0) hle hpos
        hcard_le hpass
  · have hmiss := validate_records_missing today rs hok
    refine ⟨?_, fun h => absurd h hok, ?_, fun h => absurd h hok,
      fun h => absurd h hok⟩
    · intro i hi hsev j hrow
      rw [hmiss] at hi
      simp only [List.mem_map] at hi
      obtain ⟨f, _, rfl⟩ := hi
      simp [reqMissingIssue] at hrow
    · rw [hmiss]
      constructor <;> norm_num

/-- Claim C5 (witness): the amended theorem applied to the one valid
record, whose run has no issues and pass rate 1. -/
theorem claim_C5_amended_witness :
    (validate_records today0 [baseRec]).summary.pass_rate = 1 :=
  (claim_C5_amended today0 [baseRec]).2.2.2.1 (by decide) (by decide)
    (fun i hi => by
      rw [(by decide :
        (validate_records today0 [baseRec]).issues = ([] : List Issue))] at hi
      exact absurd hi (List.not_mem_nil i))

/-- Lifting of the duplicate-id rule to the final output. -/
theorem dup_issue_lifted (today : Date) (rs : List Record) (idx : Nat)
    (raw : Record) (hok : headerOK rs) (hidx : rs[idx]? = some raw) :
    (∃ i ∈ (validate_records today rs).issues,
        i.rule_id = "OF-113" ∧ i.row_index = some idx) ↔
      (ridOf (headerOf rs) raw ≠ "" ∧
        ridOf (headerOf rs) raw ∈ seenFrom (headerOf rs) ∅ (rs.take idx)) := by
  rw [validate_records_ok today rs hok]
  constructor
  · rintro ⟨i, hi, hrule, hrow⟩
    obtain ⟨k, raw2, hk, hmem⟩ := (mem_issuesFrom _ _ _ _ _ _).mp hi
    have hrowk := (checkR_facts _ _ _ _ i hmem).1
    rw [hrow] at hrowk
    have hki : k = idx := by simpa using hrowk.symm
    subst hki
    rw [hidx] at hk
    cases hk
    have hid := checkR_rule_dup _ _ _ _ i hmem (by rw [hrule]; decide)
    have hchar := mem_idIssues_of113 _ _ _ _ i hid hrule
    exact ⟨hchar.1.1, hchar.1.2⟩
  · rintro ⟨hne, hseen⟩
    refine ⟨mkIss idx (ridOf (headerOf rs) raw) "id" "OF-113" "error"
      "Duplicate id found." (some (ridOf (headerOf rs) raw)), ?_,
      by simp [mkIss], by simp [mkIss]⟩
    apply (mem_issuesFrom _ _ _ _ _ _).mpr
    refine ⟨idx, raw, hidx, ?_⟩
    apply id_sub_checkR
    have := of113_mem_idIssues (0 + idx) (seenFrom (headerOf rs) ∅ (rs.take idx))
      (ridOf (headerOf rs) raw) ((buildR (headerOf rs) raw).lookup "id") hne hseen
    simpa [ridOf] using this

theorem seen_take_iff (header : List String) (rs : List Record) (idx : Nat)
    (x : String) :
    x ∈ seenFrom header ∅ (rs.take idx) ↔
      (x ≠ "" ∧ ∃ j raw2, j < idx ∧ rs[j]? = some raw2 ∧
        ridOf header raw2 = x) := by
  rw [mem_seenFrom]
  simp only [Finset.not_mem_empty, false_or]
  constructor
  · rintro ⟨raw2, hmem, heq, hne⟩
    obtain ⟨j, hj, hget⟩ := (mem_take_iff _ _ _).mp hmem
    exact ⟨hne, j, raw2, hj, hget, heq⟩
  · rintro ⟨hne, j, raw2, hj, hget, heq⟩
    exact ⟨raw2, (mem_take_iff _ _ _).mpr ⟨j, hj, hget⟩, heq, hne⟩

/-- Claim C6: duplicate-id errors are keyed on the exact normalized id
string; an OF-113 issue appears at a row exactly when that record's id
is non-empty and an earlier record carries the same id, and at most one
OF-113 issue exists per row. -/
theorem claim_C6_duplicate_ids (today : Date) (rs : List Record)
    (hok : headerOK rs) :
    (∀ (idx : Nat) (raw : Record), rs[idx]? = some raw →
      ((∃ i ∈ (validate_records today rs).issues,
          i.rule_id = "OF-113" ∧ i.row_index = some idx) ↔
        (ridOf (headerOf rs) raw ≠ "" ∧
          ∃ j raw2, j < idx ∧ rs[j]? = some raw2 ∧
            ridOf (headerOf rs) raw2 = ridOf (headerOf rs) raw))) ∧
    (∀ i1 ∈ (validate_records today rs).issues,
      ∀ i2 ∈ (validate_records today rs).issues,
        i1.rule_id = "OF-113" → i2.rule_id = "OF-113" →
          i1.row_index = i2.row_index → i1 = i2) := by
  constructor
  · intro idx raw hidx
    rw [dup_issue_lifted today rs idx raw hok hidx,
      seen_take_iff (headerOf rs) rs idx (ridOf (headerOf rs) raw)]
    constructor
    · rintro ⟨hne, _, hrest⟩
      exact ⟨hne, hrest⟩
    · rintro ⟨hne, hrest⟩
      exact ⟨hne, hne, hrest⟩
  · intro i1 h1 i2 h2 hr1 hr2 hrow
    rw [validate_records_ok today rs hok] at h1 h2
    obtain ⟨k1, raw1, hk1, hm1⟩ := (mem_issuesFrom _ _ _ _ _ _).mp h1
    obtain ⟨k2, raw2, hk2, hm2⟩ := (mem_issuesFrom _ _ _ _ _ _).mp h2
    have hrow1 := (checkR_facts _ _ _ _ i1 hm1).1
    have hrow2 := (checkR_facts _ _ _ _ i2 hm2).1
    have hk12 : k1 = k2 := by
      rw [hrow1, hrow2] at hrow
      simpa using hrow
    subst hk12
    rw [hk1] at hk2
    cases hk2
    have hid1 := checkR_rule_dup _ _ _ _ i1 hm1 (by rw [hr1]; decide)
    have hid2 := checkR_rule_dup _ _ _ _ i2 hm2 (by rw [hr2]; decide)
    have hc1 := mem_idIssues_of113 _ _ _ _ i1 hid1 hr1
    have hc2 := mem_idIssues_of113 _ _ _ _ i2 hid2 hr2
    rw [hc1.2, hc2.2]

/-- Claim C6 (witness): two identical records with id SKU1 and every
other required field valid produce exactly one OF-113 error, attached
to the second record. -/
theorem claim_C6_witness :
    (validate_records today0 [baseRec, baseRec]).issues.filter
      (fun i => i.rule_id == "OF-113") =
      [mkIss 1 "SKU1" "id" "OF-113" "error" "Duplicate id found."
        (some "SKU1")] ∧
    (∃ i ∈ (validate_records today0 [baseRec, baseRec]).issues,
      i.rule_id = "OF-113" ∧ i.row_index = some 1) :=
  ⟨by decide,
   ((claim_C6_duplicate_ids today0 [baseRec, baseRec] (by decide)).1 1 baseRec
     (by decide)).mpr ⟨by decide, 0, baseRec, by decide, by decide, by decide⟩⟩

/-- Lifting of the recommended-but-empty rule to the final output. -/
theorem rec_issue_lifted (today : Date) (rs : List Record) (idx : Nat)
    (raw : Record) (f : String) (hok : headerOK rs)
    (hidx : rs[idx]? = some raw) :
    (∃ i ∈ (validate_records today rs).issues,
        i.rule_id = "OF-REC" ∧ i.field = f ∧ i.row_index = some idx) ↔
      (f ∈ RECOMMENDED_FIELDS ∧ f ∈ headerOf rs ∧ pyGetStr raw f = "") := by
  rw [validate_records_ok today rs hok]
  constructor
  · rintro ⟨i, hi, hrule, hfield, hrow⟩
    obtain ⟨k, raw2, hk, hmem⟩ := (mem_issuesFrom _ _ _ _ _ _).mp hi
    have hrowk := (checkR_facts _ _ _ _ i hmem).1
    rw [hrow] at hrowk
    have hki : k = idx := by simpa using hrowk.symm
    subst hki
    rw [hidx] at hk
    cases hk
    have hrec := checkR_rule_rec _ _ _ _ i hmem (by rw [hrule]; decide)
    rw [mem_recIssues] at hrec
    obtain ⟨f2, hf2, hcond, heq⟩ := hrec
    have hfe : f2 = f := by
      rw [heq] at hfield
      simpa [mkIss] using hfield
    subst hfe
    have hmemh : f2 ∈ headerOf rs := (rhas_buildR _ _ _).mp hcond.1
    refine ⟨hf2, hmemh, ?_⟩
    rw [← rget_buildR (headerOf rs) raw f2 hmemh]
    exact hcond.2
  · rintro ⟨hf, hheader, hempty⟩
    refine ⟨mkIss idx (rget (buildR (headerOf rs) raw) "id") f "OF-REC"
      "warning" ("\"" ++ f ++ "\" is recommended but empty.")
      ((buildR (headerOf rs) raw).lookup f), ?_, by simp [mkIss],
      by simp [mkIss], by simp [mkIss]⟩
    apply (mem_issuesFrom _ _ _ _ _ _).mpr
    refine ⟨idx, raw, hidx, ?_⟩
    rw [Nat.zero_add]
    apply rec_sub_checkR
    apply (mem_recIssues _ _ _ _).mpr
    refine ⟨f, hf, ⟨(rhas_buildR _ _ _).mpr hheader, ?_⟩, rfl⟩
    rw [rget_buildR _ _ _ hheader]
    exact hempty

/-- Claim C7 (counterexample): the claim says an empty availability_date
key is warned only under preorder context; the source warns generically,
so the warning fires even with availability in_stock. -/
theorem claim_C7_counterexample :
    pyGetStr rec7 "availability" = "in_stock" ∧
    (validate_records today0 [rec7]).issues =
      [mkIss 0 "SKU1" "availability_date" "OF-REC" "warning"
        "\"availability_date\" is recommended but empty." (some "")] := by decide

/-- Claim C7 (amended): every recommended field that is a key of the
processed record (the header key set) with an empty coerced value
yields one generic OF-REC warning on that row, regardless of any
context such as availability, checkout or variant state. -/
theorem claim_C7_amended (today : Date) (rs : List Record) (idx : Nat)
    (raw : Record) (f : String) (hok : headerOK rs)
    (hidx : rs[idx]? = some raw) (hf : f ∈ RECOMMENDED_FIELDS) :
    (∃ i ∈ (validate_records today rs).issues,
        i.rule_id = "OF-REC" ∧ i.field = f ∧ i.row_index = some idx) ↔
      (f ∈ headerOf rs ∧ pyGetStr raw f = "") := by
  rw [rec_issue_lifted today rs idx raw f hok hidx]
  constructor
  · rintro ⟨_, h2, h3⟩
    exact ⟨h2, h3⟩
  · rintro ⟨h2, h3⟩
    exact ⟨hf, h2, h3⟩

/-- Claim C7 (witness): the amended theorem applied to the record with
an empty availability_date key under in_stock availability. -/
theorem claim_C7_amended_witness :
    ∃ i ∈ (validate_records today0 [rec7]).issues,
      i.rule_id = "OF-REC" ∧ i.field = "availability_date" ∧
        i.row_index = some 0 :=
  (claim_C7_amended today0 [rec7] 0 rec7 "availability_date" (by decide)
    (by decide) (by decide)).mpr ⟨by decide, by decide⟩

/-- Claim C8: normalize_key is a total pure function (defined for every
input string, with no failure path), it is idempotent on every input,
and every canonical field name, including every value of the alias
table, is a fixed point. -/
theorem claim_C8_normalize_key :
    (∀ k, normalize_key (normalize_key k) = normalize_key k) ∧
    ((REQUIRED_FIELDS ++ RECOMMENDED_FIELDS ++ HEADER_ALIASES.map Prod.snd).all
      (fun f => normalize_key f == f)) = true :=
  ⟨normalize_key_idem, by decide⟩

/-- Claim C9: validation is total: it returns a result on every record
sequence; the empty sequence yields items_total 0 and pass rate 0
without faulting; and a record whose price, inventory quantity,
availability date and return window values are all malformed still
validates normally, the malformed values becoming the issues OF-201,
OF-213, OF-214 and OF-298 rather than exceptions. -/
theorem claim_C9_total_safety :
    (∀ (today : Date) (rs : List Record), ∃ resp,
      validate_records today rs = resp) ∧
    (validate_records today0 []).summary.items_total = 0 ∧
    (validate_records today0 []).summary.pass_rate = 0 ∧
    (validate_records today0 [badRec]).summary.items_total = 1 ∧
    (validate_records today0 [badRec]).issues.map (fun i => i.rule_id) =
      ["OF-201", "OF-213", "OF-214", "OF-298"] :=
  ⟨fun today rs => ⟨_, rfl⟩, by decide, by decide, by decide, by decide⟩

/-- Claim C10: every stored value is read through one coercion before
any rule runs: null and absent keys become the empty string and strings
are stripped of surrounding whitespace; consequently replacing a value
by any other value with the same coercion, in particular a
whitespace-only string by the empty string or by null, cannot change
the validation outcome. -/
theorem claim_C10_value_coercion :
    (pyCoerce none = "") ∧
    (∀ ws : String, (∀ c ∈ ws.data, pyWs c = true) → pyCoerce (some ws) = "") ∧
    (∀ (raw : Record) (k : String), raw.lookup k = none → pyGetStr raw k = "") ∧
    (∀ (today : Date) (rs : List Record) (idx : Nat) (k : String)
        (v1 v2 : Option String), pyCoerce v1 = pyCoerce v2 →
      validate_records today (setValAt rs idx k v1) =
        validate_records today (setValAt rs idx k v2)) := by
  refine ⟨rfl, ?_, ?_, ?_⟩
  · intro ws hws
    show pyStrip ws = ""
    unfold pyStrip stripList
    have h1 : ws.data.dropWhile pyWs = [] :=
      List.dropWhile_eq_nil_iff.mpr (fun x hx => hws x hx)
    rw [h1]
    rfl
  · intro raw k h
    unfold pyGetStr
    rw [h]
  · intro today rs idx k v1 v2 h
    exact validate_setValAt_congr today rs idx k v1 v2 h

/-- Claim C10 (witness): replacing the title value by pure whitespace
gives the same outcome as a null title on a concrete record. -/
theorem claim_C10_witness :
    validate_records today0 (setValAt [baseRec] 0 "title" (some "  ")) =
      validate_records today0 (setValAt [baseRec] 0 "title" none) :=
  claim_C10_value_coercion.2.2.2 today0 [baseRec] 0 "title" (some "  ") none
    (by decide)

end Feed
